import Mathlib

/-!
# A verification model of the Duke JVM interpreter

Shallow embedding of the core of the `jvm` crate (`src/jvm/src/heap.rs`,
`src/jvm/src/interpreter/mod.rs`, `src/jvm/src/interpreter/exec.rs`,
`src/jvm/src/interpreter/invoke.rs`) and the shared class-file structures
(`src/shared/src/classfile.rs`, `src/shared/src/types.rs`).

Modelling conventions, used throughout:

* Rust `i32`/`i64` values are carried as `Int`; every operation that wraps in
  the source applies an explicit two's-complement reduction (`wrap32`,
  `wrap64`).  Rust `u16`/`u32`/`usize` indices are carried as `Nat`.
* Rust `Vec` operand stacks push/pop at the END of the vector; the Lean model
  keeps the top of the stack at the HEAD of the list.
* Fallible Rust code (`Result<_, JvmError>`) becomes `Except JvmError _` or a
  result inductive that also carries the mutated state, because the Rust code
  mutates `&mut self` / `&mut Frame` in place even on the error path.
* A Rust panic (an out-of-range `Vec` index such as `self.classes[i]`) is a
  distinct `crash` outcome: it is not a `JvmError` and no claim may be settled
  through it.
* The source's `JvmValue::Float(f32)` / `JvmValue::Double(f64)` constructors
  and the floating-point opcode arms are omitted from the model: no claim
  under consideration mentions floating point.
* `exec_one` in the source dispatches over the full opcode set; the model
  embeds the arms exercised by the development below and maps every other
  opcode to a distinct `notModelled` outcome (never to `UnsupportedOpcode`,
  which the model reserves for the arms where the source itself produces it).
-/

/-- Two's-complement reduction of an unbounded integer into `i32` range,
`[-2^31, 2^31)`.  `wrap32 x` is the value of the 32 low bits of `x` read as a
signed 32-bit integer; it models Rust's `wrapping_*` arithmetic on `i32`. -/
def wrap32 (x : Int) : Int := (x + 2 ^ 31) % 2 ^ 32 - 2 ^ 31

/-- Two's-complement reduction into `i64` range, `[-2^63, 2^63)`;
models Rust's `wrapping_*` arithmetic on `i64`. -/
def wrap64 (x : Int) : Int := (x + 2 ^ 63) % 2 ^ 64 - 2 ^ 63

/-- From `src/shared/src/types.rs`, `enum JvmValue`.  The `Float(f32)` and
`Double(f64)` constructors of the source are omitted (no claim involves
floating point).  Handles (`u32`) and return addresses (`usize`) are `Nat`;
`Int`/`Long` carry the mathematical value of the `i32`/`i64`. -/
inductive JvmValue where
  | Int (v : Int)
  | Long (v : Int)
  | Null
  | ObjectRef (id : Nat)
  | ArrayRef (id : Nat)
  | StringRef (s : String)
  | ReturnAddress (pc : Nat)
deriving DecidableEq, Repr

/-- From `src/shared/src/types.rs`, `enum JvmError`.  The closed error taxonomy.
`ArrayIndexOutOfBounds(i32, usize)` carries the signed index and the length. -/
inductive JvmError where
  | ClassFormatError (msg : String)
  | StackOverflow
  | StackUnderflow
  | TypeError (msg : String)
  | UnsupportedOpcode (op : Nat)
  | MethodNotFound (msg : String)
  | ClassNotFound (msg : String)
  | NativeMethodError (msg : String)
  | ArrayIndexOutOfBounds (index : Int) (len : Nat)
  | NullPointerException
  | OutOfMemory
  | DivisionByZero
  | IoError (msg : String)
  | SystemExit (code : Int)
deriving DecidableEq, Repr

/-- Rendering of a byte as two upper-case hex digits, as Rust's `{:02X}`. -/
def hexDigit (n : Nat) : String :=
  if n < 10 then toString n
  else if n = 10 then "A" else if n = 11 then "B" else if n = 12 then "C"
  else if n = 13 then "D" else if n = 14 then "E" else "F"

/-- Two-digit upper-case hex rendering of a byte (Rust `format!("{:02X}", op)`). -/
def hex2 (n : Nat) : String := hexDigit (n / 16 % 16) ++ hexDigit (n % 16)

/-- From `src/shared/src/types.rs`, `impl fmt::Display for JvmError`.  The formatted
description that the interpreter stores into a reified exception's
`detailMessage` field. -/
def jvmErrorToString : JvmError → String
  | .ClassFormatError msg => "ClassFormatError: " ++ msg
  | .StackOverflow => "StackOverflow"
  | .StackUnderflow => "StackUnderflow"
  | .TypeError msg => "TypeError: " ++ msg
  | .UnsupportedOpcode op => "UnsupportedOpcode: 0x" ++ hex2 op
  | .MethodNotFound msg => "MethodNotFound: " ++ msg
  | .ClassNotFound msg => "ClassNotFound: " ++ msg
  | .NativeMethodError msg => "NativeMethodError: " ++ msg
  | .ArrayIndexOutOfBounds idx len =>
      "ArrayIndexOutOfBounds: index " ++ toString idx ++ " len " ++ toString len
  | .NullPointerException => "NullPointerException"
  | .OutOfMemory => "OutOfMemory"
  | .DivisionByZero => "ArithmeticException: / by zero"
  | .IoError msg => "IoError: " ++ msg
  | .SystemExit code => "SystemExit: " ++ toString code

/-- From `src/jvm/src/interpreter/mod.rs`, `jvm_value_to_string`: the universal
value-to-string conversion (Rust `format!("{}", i)` on `i32`/`i64` is plain
decimal rendering with a leading minus for negatives, as `toString : Int →
String`). -/
def jvmValueToString : JvmValue → String
  | .Int i => toString i
  | .Long l => toString l
  | .StringRef s => s
  | .Null => "null"
  | .ObjectRef id => "Object@" ++ toString id
  | .ArrayRef id => "Array@" ++ toString id
  | .ReturnAddress pc => "RetAddr@" ++ toString pc

/-! ## Heap (`src/jvm/src/heap.rs`) -/

/-- From `heap.rs`, `enum HeapSlot<T>`: a slot is live or on the free list. -/
inductive HeapSlot (α : Type) where
  | live (v : α)
  | free (next : Option Nat)
deriving DecidableEq, Repr

/-- From `heap.rs`, `struct SlabHeap<T>`. -/
structure SlabHeap (α : Type) where
  slots : List (HeapSlot α)
  freeHead : Option Nat
deriving DecidableEq, Repr

namespace SlabHeap

/-- From `heap.rs`, `SlabHeap::new`. -/
def new (α : Type) : SlabHeap α := ⟨[], none⟩

/-- From `heap.rs`, `SlabHeap::alloc`.  Reuses the free-list head when present,
else appends; the returned handle is `slots.len() as u32`, hence the
`% 2 ^ 32` on the append path.  (In the reuse branch the source indexes
`self.slots[idx]`, which cannot be out of range because the free list only
ever holds in-range indices; `List.set` out of range is a no-op.) -/
def alloc (h : SlabHeap α) (v : α) : Nat × SlabHeap α :=
  match h.freeHead with
  | some idx =>
      let next := match h.slots.get? idx with
        | some (.free n) => n
        | _ => none
      (idx, ⟨h.slots.set idx (.live v), next⟩)
  | none => (h.slots.length % 2 ^ 32, ⟨h.slots ++ [.live v], none⟩)

/-- From `heap.rs`, `SlabHeap::get`: a non-live or out-of-range slot fails with
`NullPointerException`. -/
def get (h : SlabHeap α) (id : Nat) : Except JvmError α :=
  match h.slots.get? id with
  | some (.live v) => .ok v
  | _ => .error .NullPointerException

/-- From `heap.rs`, `SlabHeap::free`: in range, mark the slot free and push it on
the free list; out of range, do nothing. -/
def free (h : SlabHeap α) (id : Nat) : SlabHeap α :=
  if id < h.slots.length then ⟨h.slots.set id (.free h.freeHead), some id⟩
  else h

/-- Allocate a whole list of values in order, returning the handles in order
(used to state the no-free heap-identity law). -/
def allocAll (h : SlabHeap α) : List α → List Nat × SlabHeap α
  | [] => ([], h)
  | v :: vs =>
      let (id, h1) := h.alloc v
      let (ids, h2) := h1.allocAll vs
      (id :: ids, h2)

end SlabHeap

/-- From `heap.rs`, `struct JvmObject`: class name plus an ordered field map.  The
Rust `BTreeMap<String, JvmValue>` is modelled as an association list with
`insertField` replacing an existing binding in place (same lookup
observations). -/
structure JvmObject where
  className : String
  fields : List (String × JvmValue)
deriving DecidableEq, Repr

/-- Models `BTreeMap::insert`: replace the binding of `k` if present, else add it. -/
def insertField (m : List (String × JvmValue)) (k : String) (v : JvmValue) :
    List (String × JvmValue) :=
  match m with
  | [] => [(k, v)]
  | (k1, v1) :: rest =>
      if k1 = k then (k, v) :: rest else (k1, v1) :: insertField rest k v

/-- From `heap.rs`, `struct JvmArray`. -/
structure JvmArray where
  elementType : String
  elements : List JvmValue
deriving DecidableEq, Repr

/-- From `heap.rs`, `struct Heap`: the two independent slabs. -/
structure Heap where
  objects : SlabHeap JvmObject
  arrays : SlabHeap JvmArray
deriving DecidableEq, Repr

namespace Heap

/-- From `heap.rs`, `Heap::new`. -/
def new : Heap := ⟨SlabHeap.new _, SlabHeap.new _⟩

/-- From `heap.rs`, `Heap::alloc_object`.  The Rust signature returns
`Result<u32, JvmError>` but the body is always `Ok`, so the model drops
the wrapper. -/
def allocObject (h : Heap) (className : String) : Nat × Heap :=
  let (id, objects) := h.objects.alloc ⟨className, []⟩
  (id, { h with objects })

/-- From `heap.rs`, `Heap::get_object`. -/
def getObject (h : Heap) (id : Nat) : Except JvmError JvmObject :=
  h.objects.get id

/-- From `heap.rs`, `Heap::free_object`. -/
def freeObject (h : Heap) (id : Nat) : Heap :=
  { h with objects := h.objects.free id }

/-- From `heap.rs`, `Heap::get_object_mut` followed by an in-place mutation of the
object: read the slot (failing with `NullPointerException` exactly when
`get_object_mut` does) and write back the updated object. -/
def withObject (h : Heap) (id : Nat) (g : JvmObject → JvmObject) :
    Except JvmError Heap :=
  match h.objects.get id with
  | .error e => .error e
  | .ok obj => .ok { h with objects := ⟨h.objects.slots.set id (.live (g obj)), h.objects.freeHead⟩ }

/-- From `heap.rs`, `Heap::get_array`. -/
def getArray (h : Heap) (id : Nat) : Except JvmError JvmArray :=
  h.arrays.get id

/-- From `heap.rs`, `Heap::free_array`. -/
def freeArray (h : Heap) (id : Nat) : Heap :=
  { h with arrays := h.arrays.free id }

end Heap

/-! ## Class files (`src/shared/src/classfile.rs`) -/

/-- From `classfile.rs`, `enum CpEntry`: constant-pool entries.  `Float`/`Double`
payloads are omitted with the floating-point model (their entries keep a
placeholder constructor so pool indices still line up). -/
inductive CpEntry where
  | Unused
  | Utf8 (s : String)
  | Integer (v : Int)
  | FloatEntry
  | Long (v : Int)
  | DoubleEntry
  | Class (nameIndex : Nat)
  | StringRef (stringIndex : Nat)
  | Fieldref (classIndex nameAndTypeIndex : Nat)
  | Methodref (classIndex nameAndTypeIndex : Nat)
  | InterfaceMethodref (classIndex nameAndTypeIndex : Nat)
  | NameAndType (nameIndex descriptorIndex : Nat)
  | MethodHandle (referenceKind referenceIndex : Nat)
  | MethodType (descriptorIndex : Nat)
  | InvokeDynamic (bootstrapMethodAttrIndex nameAndTypeIndex : Nat)
deriving DecidableEq, Repr

/-- From `classfile.rs`, `struct ExceptionTableEntry`. -/
structure ExceptionTableEntry where
  startPc : Nat
  endPc : Nat
  handlerPc : Nat
  catchType : Nat
deriving DecidableEq, Repr

/-- From `classfile.rs`, `struct CodeAttribute`.  Code bytes are `Nat` (< 256). -/
structure CodeAttribute where
  maxStack : Nat
  maxLocals : Nat
  code : List Nat
  exceptionTable : List ExceptionTableEntry
deriving DecidableEq, Repr

/-- From `classfile.rs`, `struct MethodInfo`. -/
structure MethodInfo where
  accessFlags : Nat
  nameIndex : Nat
  descriptorIndex : Nat
  code : Option CodeAttribute
deriving DecidableEq, Repr

/-- From `classfile.rs`, `struct FieldInfo`. -/
structure FieldInfo where
  accessFlags : Nat
  nameIndex : Nat
  descriptorIndex : Nat
deriving DecidableEq, Repr

/-- From `classfile.rs`, `ACC_NATIVE`. -/
def ACC_NATIVE : Nat := 0x0100

/-- From `classfile.rs`, `struct BootstrapMethodEntry`. -/
structure BootstrapMethodEntry where
  methodRef : Nat
  arguments : List Nat
deriving DecidableEq, Repr

/-- From `classfile.rs`, `struct ClassFile`. -/
structure ClassFile where
  minorVersion : Nat
  majorVersion : Nat
  constantPool : List CpEntry
  accessFlags : Nat
  thisClass : Nat
  superClass : Nat
  interfaces : List Nat
  fields : List FieldInfo
  methods : List MethodInfo
  bootstrapMethods : List BootstrapMethodEntry
deriving DecidableEq, Repr

namespace ClassFile

/-- From `classfile.rs`, `ClassFile::get_utf8`. -/
def getUtf8 (c : ClassFile) (index : Nat) : Except JvmError String :=
  match c.constantPool.get? index with
  | some (.Utf8 s) => .ok s
  | _ => .error (.ClassFormatError ("expected Utf8 at cp#" ++ toString index))

/-- From `classfile.rs`, `ClassFile::get_class_name`. -/
def getClassName (c : ClassFile) (index : Nat) : Except JvmError String :=
  match c.constantPool.get? index with
  | some (.Class nameIndex) => c.getUtf8 nameIndex
  | _ => .error (.ClassFormatError ("expected Class at cp#" ++ toString index))

/-- From `classfile.rs`, `ClassFile::class_name`. -/
def className (c : ClassFile) : Except JvmError String :=
  c.getClassName c.thisClass

/-- From `classfile.rs`, `ClassFile::super_class_name`. -/
def superClassName (c : ClassFile) : Option String :=
  if c.superClass = 0 then none
  else (c.getClassName c.superClass).toOption

/-- From `classfile.rs`, `ClassFile::find_method_by_name`: the FIRST method whose
name matches; the descriptor is not consulted. -/
def findMethodByName (c : ClassFile) (name : String) : Option MethodInfo :=
  c.methods.find? (fun m => (c.getUtf8 m.nameIndex).toOption == some name)

/-- From `classfile.rs`, `ClassFile::resolve_name_and_type`. -/
def resolveNameAndType (c : ClassFile) (index : Nat) :
    Except JvmError (String × String) :=
  match c.constantPool.get? index with
  | some (.NameAndType nameIndex descriptorIndex) =>
      match c.getUtf8 nameIndex with
      | .error e => .error e
      | .ok n =>
          match c.getUtf8 descriptorIndex with
          | .error e => .error e
          | .ok d => .ok (n, d)
  | _ => .error (.ClassFormatError ("expected NameAndType at cp#" ++ toString index))

end ClassFile

/-- The inner scan of `count_descriptor_args`, `while i < bytes.len() && bytes[i] != b';'`.
The fuel argument only bounds the loop; `bytes.length` fuel is always enough
(each iteration advances `i` and the loop stops at `bytes.length`), so the
fuelled form below agrees with the Rust loop at every call site. -/
def skipToSemi (bytes : List Nat) : Nat → Nat → Nat
  | 0, i => i
  | fuel + 1, i =>
      if i < bytes.length then
        if bytes.get? i = some 59 then i else skipToSemi bytes fuel (i + 1)
      else i

/-- The inner scan of `count_descriptor_args`, `while i < bytes.len() && bytes[i] == b'['`;
fuelled like `skipToSemi`. -/
def skipBrackets (bytes : List Nat) : Nat → Nat → Nat
  | 0, i => i
  | fuel + 1, i =>
      if i < bytes.length then
        if bytes.get? i = some 91 then skipBrackets bytes fuel (i + 1) else i
      else i

/-- From `classfile.rs`, `count_descriptor_args`: walk the bytes of the descriptor
between `(` and `)`; `L…;` and `[`-prefixed types count one each, primitive
letters count one.  The walk starts at byte index 1; the fuel argument bounds
the loop (the Rust loop always terminates because `i` strictly increases, and
`countDescriptorArgs` below passes fuel `bytes.length + 1`, which the loop can
never exhaust). -/
def countDescriptorArgsLoop (bytes : List Nat) : Nat → Nat → Nat
  | 0, _ => 0
  | fuel + 1, i =>
      match bytes.get? i with
      | none => 0
      | some b =>
        if b = 41 then 0  -- b')'
        else if b = 76 then  -- b'L'
          1 + countDescriptorArgsLoop bytes fuel (skipToSemi bytes bytes.length i + 1)
        else if b = 91 then  -- b'['
          let j := skipBrackets bytes bytes.length i
          let j2 :=
            if bytes.get? j = some 76 then skipToSemi bytes bytes.length j + 1 else j + 1
          1 + countDescriptorArgsLoop bytes fuel j2
        else if b = 66 ∨ b = 67 ∨ b = 68 ∨ b = 70 ∨ b = 73 ∨ b = 74 ∨ b = 83 ∨ b = 90 then
          -- b'B' | b'C' | b'D' | b'F' | b'I' | b'J' | b'S' | b'Z'
          1 + countDescriptorArgsLoop bytes fuel (i + 1)
        else countDescriptorArgsLoop bytes fuel (i + 1)

/-- UTF-8 encoding of one character (Rust `str::as_bytes` views the string's
UTF-8 bytes; this reproduces that encoding per character). -/
def utf8Bytes (c : Char) : List Nat :=
  let n := c.toNat
  if n < 0x80 then [n]
  else if n < 0x800 then [0xC0 + n / 0x40, 0x80 + n % 0x40]
  else if n < 0x10000 then [0xE0 + n / 0x1000, 0x80 + n / 0x40 % 0x40, 0x80 + n % 0x40]
  else [0xF0 + n / 0x40000, 0x80 + n / 0x1000 % 0x40, 0x80 + n / 0x40 % 0x40, 0x80 + n % 0x40]

/-- The UTF-8 byte sequence of a string, as Rust `s.as_bytes()`. -/
def strBytes (s : String) : List Nat := s.data.flatMap utf8Bytes

/-- From `classfile.rs`, `count_descriptor_args(descriptor)`. -/
def countDescriptorArgs (descriptor : String) : Nat :=
  let bytes := strBytes descriptor
  countDescriptorArgsLoop bytes (bytes.length + 1) 1

/-! ## Frames and the VM (`src/jvm/src/interpreter/mod.rs`) -/

/-- From `mod.rs`, `struct Frame`.  The operand stack keeps its top at the HEAD of
the list (the Rust `Vec` pushes/pops at its end). -/
structure Frame where
  stack : List JvmValue
  locals : List JvmValue
  code : List Nat
  pc : Nat
  classIdx : Nat
  exceptionTable : List ExceptionTableEntry
deriving DecidableEq, Repr

/-- Value of a byte read as Rust `u8 as i8 as i32` (sign extension). -/
def toSigned8 (n : Nat) : Int := if n < 2 ^ 7 then n else (n : Int) - 2 ^ 8

/-- Value of two big-endian bytes read as Rust `read_i16` (`(hi << 8) | lo`
on `i16`, i.e. the 16-bit two's-complement value). -/
def toSigned16 (n : Nat) : Int := if n < 2 ^ 15 then n else (n : Int) - 2 ^ 16

/-- Value of four big-endian bytes read as `read_i32`. -/
def toSigned32 (n : Nat) : Int := if n < 2 ^ 31 then n else (n : Int) - 2 ^ 32

/-- Models `(op_pc as isize + off as isize) as usize`: branch-target arithmetic on
the program counter.  A negative sum wraps around `2 ^ 64` exactly as the Rust
`as usize` cast does (the resulting huge index makes the next fetch panic). -/
def usizeOfInt (x : Int) : Nat := (x % 2 ^ 64).toNat

namespace Frame

/-- From `mod.rs`, `Frame::read_u8`; `none` models the index panic past the end. -/
def readU8 (f : Frame) : Option (Nat × Frame) :=
  match f.code.get? f.pc with
  | some b => some (b, { f with pc := f.pc + 1 })
  | none => none

/-- From `mod.rs`, `Frame::read_i16`. -/
def readI16 (f : Frame) : Option (Int × Frame) :=
  match f.code.get? f.pc, f.code.get? (f.pc + 1) with
  | some hi, some lo => some (toSigned16 (hi * 2 ^ 8 + lo), { f with pc := f.pc + 2 })
  | _, _ => none

/-- From `mod.rs`, `Frame::read_u16`. -/
def readU16 (f : Frame) : Option (Nat × Frame) :=
  match f.code.get? f.pc, f.code.get? (f.pc + 1) with
  | some hi, some lo => some (hi * 2 ^ 8 + lo, { f with pc := f.pc + 2 })
  | _, _ => none

/-- From `mod.rs`, `Frame::push`. -/
def push (f : Frame) (v : JvmValue) : Frame :=
  { f with stack := v :: f.stack }

end Frame

/-- Result of a frame operation that may fail: the Rust code mutates the frame
in place, so the error case still carries the frame state reached so far. -/
inductive PopRes (α : Type) where
  | ok (a : α) (f : Frame)
  | err (e : JvmError) (f : Frame)

namespace Frame

/-- From `mod.rs`, `Frame::pop`: `StackUnderflow` on an empty stack. -/
def pop (f : Frame) : PopRes JvmValue :=
  match f.stack with
  | [] => .err .StackUnderflow f
  | v :: rest => .ok v { f with stack := rest }

/-- From `mod.rs`, `Frame::pop_int` (`pop` then `JvmValue::as_int`). -/
def popInt (f : Frame) : PopRes Int :=
  match f.pop with
  | .err e f1 => .err e f1
  | .ok (.Int v) f1 => .ok v f1
  | .ok _ f1 => .err (.TypeError "expected int") f1

/-- From `mod.rs`, `Frame::pop_long` (`pop` then `JvmValue::as_long`). -/
def popLong (f : Frame) : PopRes Int :=
  match f.pop with
  | .err e f1 => .err e f1
  | .ok (.Long v) f1 => .ok v f1
  | .ok _ f1 => .err (.TypeError "expected long") f1

/-- Pop `n` values, first-popped first, as the argument-collection loops in
`invoke.rs` do (they then `reverse` the collected vector). -/
def popN (f : Frame) : Nat → PopRes (List JvmValue)
  | 0 => .ok [] f
  | n + 1 =>
      match f.pop with
      | .err e f1 => .err e f1
      | .ok v f1 =>
          match f1.popN n with
          | .err e f2 => .err e f2
          | .ok vs f2 => .ok (v :: vs) f2

end Frame

/-- From `mod.rs`, `enum ExecAction`. -/
inductive ExecAction where
  | Continue
  | ReturnVal (v : JvmValue)
  | ReturnVoid
  | Throw (className : String) (v : JvmValue)
deriving DecidableEq, Repr

/-- From `mod.rs`, `struct Vm<N: NativeBridge>`.  The native bridge (a trait with
the single capability `call_native(class, method, descriptor, args)`) is
modelled as a pure function; no claim routes through it. -/
structure Vm where
  classes : List ClassFile
  heap : Heap
  natives : String → String → String → List JvmValue → Except JvmError (Option JvmValue)
  statics : List (String × JvmValue)

namespace Vm

/-- From `mod.rs`, `Vm::find_class_index`: position of the first loaded class whose
name matches. -/
def findClassIndex (vm : Vm) (name : String) : Option Nat :=
  vm.classes.findIdx? (fun c => c.className.toOption == some name)

end Vm

/-- The well-known class list hard-coded in `Vm::is_subclass`
(`mod.rs` lines 135–147).  Note that it contains `java/lang/Object`. -/
def wellKnown : List String :=
  [ "java/lang/Object",
    "java/lang/Throwable",
    "java/lang/Exception",
    "java/lang/RuntimeException",
    "java/lang/NullPointerException",
    "java/lang/ArithmeticException",
    "java/lang/ArrayIndexOutOfBoundsException",
    "java/lang/ClassCastException",
    "java/lang/IllegalArgumentException",
    "java/lang/UnsupportedOperationException",
    "java/lang/IndexOutOfBoundsException" ]

/-- The runtime-exception list hard-coded in `Vm::is_subclass`
(`mod.rs` lines 161–169). -/
def runtimeExcs : List String :=
  [ "java/lang/NullPointerException",
    "java/lang/ArithmeticException",
    "java/lang/ArrayIndexOutOfBoundsException",
    "java/lang/ClassCastException",
    "java/lang/IllegalArgumentException",
    "java/lang/UnsupportedOperationException",
    "java/lang/IndexOutOfBoundsException" ]

/-- From `mod.rs`, `Vm::is_subclass`.  The branches are in source order (the
duplicated `child == parent` test collapses to one).  The source recurses
through declared super classes without a bound (a cyclic super chain would
overflow the host stack); the model bounds that recursion by `fuel`, which
only the loaded-class branch consumes — `vm.classes.length` fuel suffices for
every acyclic chain. -/
def isSubclass (vm : Vm) : Nat → String → String → Bool
  | fuel, child, parent =>
    if child = parent then true
    else if parent = "java/lang/Object" then true
    else if parent = "java/lang/Throwable" ∧ child ∈ wellKnown then true
    else if parent = "java/lang/Exception" then
      decide (child ≠ "java/lang/Throwable" ∧ child ∈ wellKnown)
    else if parent = "java/lang/RuntimeException" then decide (child ∈ runtimeExcs)
    else if parent = "java/lang/IndexOutOfBoundsException" ∧
            child = "java/lang/ArrayIndexOutOfBoundsException" then true
    else
      match vm.findClassIndex child with
      | none => false
      | some idx =>
          match vm.classes.get? idx with
          | none => false  -- unreachable: findClassIndex yields an in-range index
          | some c =>
              match c.superClassName with
              | none => false
              | some sn =>
                  match fuel with
                  | 0 => false
                  | fuel1 + 1 => isSubclass vm fuel1 sn parent

/-- From `mod.rs`, the loop body of `Vm::find_exception_handler`: walk the table in
order; an entry matches when it covers `pc` and its catch type is 0 or the
thrown class is a subclass of the entry's resolved catch class; entries whose
catch class fails to resolve are skipped.  Outer `none` models the
`self.classes[frame.class_idx]` index panic. -/
def findHandlerLoop (vm : Vm) (classIdx : Nat) (pc : Nat) (excClass : String) :
    List ExceptionTableEntry → Option (Option Nat)
  | [] => some none
  | entry :: rest =>
      if entry.startPc ≤ pc ∧ pc < entry.endPc then
        if entry.catchType = 0 then some (some entry.handlerPc)
        else
          match vm.classes.get? classIdx with
          | none => none
          | some c =>
              match c.getClassName entry.catchType with
              | .ok catchName =>
                  if isSubclass vm vm.classes.length excClass catchName then
                    some (some entry.handlerPc)
                  else findHandlerLoop vm classIdx pc excClass rest
              | .error _ => findHandlerLoop vm classIdx pc excClass rest
      else findHandlerLoop vm classIdx pc excClass rest

/-- From `mod.rs`, `Vm::find_exception_handler`. -/
def findExceptionHandler (vm : Vm) (f : Frame) (pc : Nat) (excClass : String) :
    Option (Option Nat) :=
  findHandlerLoop vm f.classIdx pc excClass f.exceptionTable

/-! ## Opcode execution (`src/jvm/src/interpreter/exec.rs`) -/

/-- Outcome of `Vm::exec_one`: the Rust signature is
`Result<ExecAction, JvmError>` with `&mut self` and `&mut Frame`, so both the
`ok` and the `err` case carry the (possibly part-mutated) VM and frame.
`crash` models a Rust index panic; `notModelled` marks an opcode arm of the
source that this development does not embed. -/
inductive ExecOut where
  | ok (a : ExecAction) (vm : Vm) (f : Frame)
  | err (e : JvmError) (vm : Vm) (f : Frame)
  | crash
  | notModelled

/-- From `exec.rs`, `Vm::refs_equal` (reference identity; the `&self` receiver is
unused in the source). -/
def refsEqual : JvmValue → JvmValue → Bool
  | .Null, .Null => true
  | .ObjectRef x, .ObjectRef y => x == y
  | .ArrayRef x, .ArrayRef y => x == y
  | _, _ => false

/-- The `pop b; pop a; push g a b` shape shared by the binary `int` opcode
arms of `exec_one`. -/
def binIntOp (vm : Vm) (f : Frame) (g : Int → Int → Int) : ExecOut :=
  match f.popInt with
  | .err e f1 => .err e vm f1
  | .ok b f1 =>
      match f1.popInt with
      | .err e f2 => .err e vm f2
      | .ok a f2 => .ok .Continue vm (f2.push (.Int (g a b)))

/-- The binary `long` opcode shape (both operands popped as `long`). -/
def binLongOp (vm : Vm) (f : Frame) (g : Int → Int → Int) : ExecOut :=
  match f.popLong with
  | .err e f1 => .err e vm f1
  | .ok b f1 =>
      match f1.popLong with
      | .err e f2 => .err e vm f2
      | .ok a f2 => .ok .Continue vm (f2.push (.Long (g a b)))

/-- The `long` shift shape: the count is popped as `int`, the operand as
`long` (`lshl`/`lshr`/`lushr`). -/
def longShiftOp (vm : Vm) (f : Frame) (g : Int → Int → Int) : ExecOut :=
  match f.popInt with
  | .err e f1 => .err e vm f1
  | .ok b f1 =>
      match f1.popLong with
      | .err e f2 => .err e vm f2
      | .ok a f2 => .ok .Continue vm (f2.push (.Long (g a b)))

/-- The `idiv`/`irem` shape: division/remainder by zero raises
`DivisionByZero` after both pops. -/
def binIntDivOp (vm : Vm) (f : Frame) (g : Int → Int → Int) : ExecOut :=
  match f.popInt with
  | .err e f1 => .err e vm f1
  | .ok b f1 =>
      match f1.popInt with
      | .err e f2 => .err e vm f2
      | .ok a f2 =>
          if b = 0 then .err .DivisionByZero vm f2
          else .ok .Continue vm (f2.push (.Int (g a b)))

/-- The `ldiv`/`lrem` shape. -/
def binLongDivOp (vm : Vm) (f : Frame) (g : Int → Int → Int) : ExecOut :=
  match f.popLong with
  | .err e f1 => .err e vm f1
  | .ok b f1 =>
      match f1.popLong with
      | .err e f2 => .err e vm f2
      | .ok a f2 =>
          if b = 0 then .err .DivisionByZero vm f2
          else .ok .Continue vm (f2.push (.Long (g a b)))

/-- The unary `int` shape (`ineg`). -/
def unIntOp (vm : Vm) (f : Frame) (g : Int → Int) : ExecOut :=
  match f.popInt with
  | .err e f1 => .err e vm f1
  | .ok v f1 => .ok .Continue vm (f1.push (.Int (g v)))

/-- The unary `long` shape (`lneg`). -/
def unLongOp (vm : Vm) (f : Frame) (g : Int → Int) : ExecOut :=
  match f.popLong with
  | .err e f1 => .err e vm f1
  | .ok v f1 => .ok .Continue vm (f1.push (.Long (g v)))

/-- The `*load_<k>` shape: push `locals[k]` (a Rust index panic when out of
range). -/
def loadLocal (vm : Vm) (f : Frame) (k : Nat) : ExecOut :=
  match f.locals.get? k with
  | some v => .ok .Continue vm (f.push v)
  | none => .crash

/-- The `if_acmpeq`/`if_acmpne` shape: read the 16-bit offset, pop two
references, branch relative to the opcode's own pc when `cond` holds of
`refs_equal`. -/
def acmpOp (vm : Vm) (f : Frame) (opPc : Nat) (cond : Bool → Bool) : ExecOut :=
  match f.readI16 with
  | none => .crash
  | some (off, f1) =>
      match f1.pop with
      | .err e f2 => .err e vm f2
      | .ok b f2 =>
          match f2.pop with
          | .err e f3 => .err e vm f3
          | .ok a f3 =>
              if cond (refsEqual a b) then
                .ok .Continue vm { f3 with pc := usizeOfInt ((opPc : Int) + off) }
              else .ok .Continue vm f3

/-! ## `invokedynamic` (`src/jvm/src/interpreter/invoke.rs`, `do_invokedynamic`) -/

/-- Result of `do_invokedynamic` (`Result<(), JvmError>` over a `&mut Frame`):
the ok case carries the mutated frame, the error case the frame reached so
far; `crash` models the source's direct `Vec` indexing panics
(`constant_pool[idx]`, `bootstrap_methods[i]`). -/
inductive InvokeRes where
  | ok (f : Frame)
  | err (e : JvmError) (f : Frame)
  | crash

/-- The recipe scan of `do_invokedynamic`: each recipe byte equal to 1 takes
the next argument (if any) rendered through `jvm_value_to_string`; any other
byte is appended literally (`result.push(byte as char)`); arguments left when
the recipe ends are appended in order. -/
def concatRecipe : List Nat → List JvmValue → String → String
  | [], args, acc => args.foldl (fun a arg => a ++ jvmValueToString arg) acc
  | b :: bs, args, acc =>
      if b = 1 then
        match args with
        | [] => concatRecipe bs [] acc
        | a :: rest => concatRecipe bs rest (acc ++ jvmValueToString a)
      else concatRecipe bs args (acc.push (Char.ofNat b))

/-- The string produced for recipe `recipe` and dynamic arguments `args`. -/
def buildConcat (recipe : String) (args : List JvmValue) : String :=
  concatRecipe (strBytes recipe) args ""

/-- From `invoke.rs`, `Vm::do_invokedynamic`: only `makeConcatWithConstants` is
supported; it pops the descriptor's argument count of values (reversing them
into call order), resolves the first bootstrap argument as the recipe string
(a `StringRef` or `Utf8` pool entry; anything else, or a missing argument,
yields the empty recipe; `get_utf8` failure falls back to `""` via
`unwrap_or`), and pushes the concatenation.  Every other method name fails
with `UnsupportedOpcode(0xBA)` before anything is popped. -/
def doInvokedynamic (vm : Vm) (f : Frame) (idx : Nat) : InvokeRes :=
  match vm.classes.get? f.classIdx with
  | none => .crash
  | some c =>
      match c.constantPool.get? idx with
      | none => .crash
      | some (.InvokeDynamic bootstrapIdx nameAndTypeIdx) =>
          match c.resolveNameAndType nameAndTypeIdx with
          | .error e => .err e f
          | .ok (methodName, descriptor) =>
              if methodName = "makeConcatWithConstants" then
                match f.popN (countDescriptorArgs descriptor) with
                | .err e f1 => .err e f1
                | .ok popped f1 =>
                    let args := popped.reverse
                    match c.bootstrapMethods.get? bootstrapIdx with
                    | none => .crash
                    | some bsm =>
                        match bsm.arguments.head? with
                        | none => .ok (f1.push (.StringRef (buildConcat "" args)))
                        | some recipeIdx =>
                            match c.constantPool.get? recipeIdx with
                            | none => .crash
                            | some (.StringRef stringIndex) =>
                                let recipe := ((c.getUtf8 stringIndex).toOption).getD ""
                                .ok (f1.push (.StringRef (buildConcat recipe args)))
                            | some (.Utf8 s) => .ok (f1.push (.StringRef (buildConcat s args)))
                            | some _ => .ok (f1.push (.StringRef (buildConcat "" args)))
              else .err (.UnsupportedOpcode 0xBA) f
      | some _ => .err (.ClassFormatError ("expected InvokeDynamic at cp#" ++ toString idx)) f

/-- From `exec.rs`, `Vm::exec_one`, for the opcode arms this development uses; the
arms not listed (constants beyond those here, the floating-point families,
array/field/invoke/new/switch/`wide`, …) answer `notModelled` (see the header
note; the source's own wildcard arm `_ => Err(UnsupportedOpcode(op))` is
likewise not embedded).  `op` is the opcode byte already fetched by the
dispatch loop, `opPc` its address. -/
def execOne (vm : Vm) (f : Frame) (op : Nat) (opPc : Nat) : ExecOut :=
  match op with
  | 0x00 => .ok .Continue vm f                               -- nop
  | 0x01 => .ok .Continue vm (f.push .Null)                  -- aconst_null
  | 0x02 => .ok .Continue vm (f.push (.Int (-1)))            -- iconst_m1
  | 0x03 => .ok .Continue vm (f.push (.Int 0))               -- iconst_0
  | 0x04 => .ok .Continue vm (f.push (.Int 1))               -- iconst_1
  | 0x05 => .ok .Continue vm (f.push (.Int 2))               -- iconst_2
  | 0x06 => .ok .Continue vm (f.push (.Int 3))               -- iconst_3
  | 0x07 => .ok .Continue vm (f.push (.Int 4))               -- iconst_4
  | 0x08 => .ok .Continue vm (f.push (.Int 5))               -- iconst_5
  | 0x09 => .ok .Continue vm (f.push (.Long 0))              -- lconst_0
  | 0x0A => .ok .Continue vm (f.push (.Long 1))              -- lconst_1
  | 0x10 =>                                                  -- bipush
      match f.readU8 with
      | none => .crash
      | some (b, f1) => .ok .Continue vm (f1.push (.Int (toSigned8 b)))
  | 0x11 =>                                                  -- sipush
      match f.readI16 with
      | none => .crash
      | some (v, f1) => .ok .Continue vm (f1.push (.Int v))
  | 0x1A | 0x1E | 0x22 | 0x26 | 0x2A => loadLocal vm f 0     -- iload_0 | lload_0 | fload_0 | dload_0 | aload_0
  | 0x1B | 0x1F | 0x23 | 0x27 | 0x2B => loadLocal vm f 1     -- iload_1 | …
  | 0x1C | 0x20 | 0x24 | 0x28 | 0x2C => loadLocal vm f 2     -- iload_2 | …
  | 0x1D | 0x21 | 0x25 | 0x29 | 0x2D => loadLocal vm f 3     -- iload_3 | …
  | 0x60 => binIntOp vm f (fun a b => wrap32 (a + b))        -- iadd (wrapping_add)
  | 0x61 => binLongOp vm f (fun a b => wrap64 (a + b))       -- ladd
  | 0x64 => binIntOp vm f (fun a b => wrap32 (a - b))        -- isub (wrapping_sub)
  | 0x65 => binLongOp vm f (fun a b => wrap64 (a - b))       -- lsub
  | 0x68 => binIntOp vm f (fun a b => wrap32 (a * b))        -- imul (wrapping_mul)
  | 0x69 => binLongOp vm f (fun a b => wrap64 (a * b))       -- lmul
  | 0x6C => binIntDivOp vm f (fun a b => wrap32 (a.tdiv b))  -- idiv (wrapping_div; Rust / truncates)
  | 0x6D => binLongDivOp vm f (fun a b => wrap64 (a.tdiv b)) -- ldiv
  | 0x70 => binIntDivOp vm f (fun a b => wrap32 (a.tmod b))  -- irem (wrapping_rem; Rust % truncates)
  | 0x71 => binLongDivOp vm f (fun a b => wrap64 (a.tmod b)) -- lrem
  | 0x74 => unIntOp vm f (fun v => wrap32 (-v))              -- ineg (wrapping_neg)
  | 0x75 => unLongOp vm f (fun v => wrap64 (-v))             -- lneg
  | 0x78 => binIntOp vm f (fun a b => wrap32 (a * 2 ^ (b % 32).toNat))    -- ishl (count masked & 0x1f)
  | 0x79 => longShiftOp vm f (fun a b => wrap64 (a * 2 ^ (b % 64).toNat)) -- lshl (count masked & 0x3f)
  | 0x7A => binIntOp vm f (fun a b => a.fdiv (2 ^ (b % 32).toNat))        -- ishr (arithmetic shift)
  | 0x7B => longShiftOp vm f (fun a b => a.fdiv (2 ^ (b % 64).toNat))     -- lshr
  | 0x7C => binIntOp vm f (fun a b => wrap32 ((a % 2 ^ 32).fdiv (2 ^ (b % 32).toNat)))    -- iushr (logical shift)
  | 0x7D => longShiftOp vm f (fun a b => wrap64 ((a % 2 ^ 64).fdiv (2 ^ (b % 64).toNat))) -- lushr
  | 0x7E => binIntOp vm f (fun a b => Int.land a b)          -- iand (bitwise on i32 values)
  | 0x7F => binLongOp vm f (fun a b => Int.land a b)         -- land
  | 0x80 => binIntOp vm f (fun a b => Int.lor a b)           -- ior
  | 0x81 => binLongOp vm f (fun a b => Int.lor a b)          -- lor
  | 0x82 => binIntOp vm f (fun a b => Int.xor a b)           -- ixor
  | 0x83 => binLongOp vm f (fun a b => Int.xor a b)          -- lxor
  | 0xA5 => acmpOp vm f opPc (fun eq => eq)                  -- if_acmpeq
  | 0xA6 => acmpOp vm f opPc (fun eq => !eq)                 -- if_acmpne
  | 0xA7 =>                                                  -- goto
      match f.readI16 with
      | none => .crash
      | some (off, f1) => .ok .Continue vm { f1 with pc := usizeOfInt ((opPc : Int) + off) }
  | 0xAC | 0xAD | 0xAE | 0xAF | 0xB0 =>                      -- ireturn | lreturn | freturn | dreturn | areturn
      match f.pop with
      | .err e f1 => .err e vm f1
      | .ok v f1 => .ok (.ReturnVal v) vm f1
  | 0xB1 => .ok .ReturnVoid vm f                             -- return
  | 0xBA =>                                                  -- invokedynamic
      match f.readU16 with
      | none => .crash
      | some (idx, f1) =>
          match f1.readU16 with                              -- the two discarded zero bytes
          | none => .crash
          | some (_, f2) =>
              match doInvokedynamic vm f2 idx with
              | .ok f3 => .ok .Continue vm f3
              | .err e f3 => .err e vm f3
              | .crash => .crash
  | 0xBF =>                                                  -- athrow
      match f.pop with
      | .err e f1 => .err e vm f1
      | .ok excVal f1 =>
          match excVal with
          | .ObjectRef id =>
              match vm.heap.getObject id with
              | .error e => .err e vm f1
              | .ok obj => .ok (.Throw obj.className excVal) vm f1
          | _ => .ok (.Throw "java/lang/Throwable" excVal) vm f1
  | _ => .notModelled

/-! ## The dispatch loop (`src/jvm/src/interpreter/mod.rs`, `Vm::interpret`) -/

/-- The reification table of `Vm::interpret` (lines 278–285): the class name
allocated for an interceptable runtime failure, `none` for every other error. -/
def interceptClass : JvmError → Option String
  | .NullPointerException => some "java/lang/NullPointerException"
  | .DivisionByZero => some "java/lang/ArithmeticException"
  | .ArrayIndexOutOfBounds _ _ => some "java/lang/ArrayIndexOutOfBoundsException"
  | _ => none

/-- One outcome of the dispatch loop of `Vm::interpret`: keep looping with new
state, return to the caller, or surface an error to the caller.  `crash` and
`notModelled` as in `ExecOut`. -/
inductive StepRes where
  | cont (vm : Vm) (f : Frame)
  | ret (v : Option JvmValue) (vm : Vm)
  | err (e : JvmError) (vm : Vm)
  | crash
  | notModelled

/-- From `mod.rs`, `Vm::interpret`, the `match result` body (lines 258–303): how
one `exec_one` outcome is dispatched.

* `Throw` from `athrow`/`checkcast`: a matching handler clears the stack,
  pushes the exception object as the only entry and jumps to `handler_pc`;
  otherwise the loop RETURNS `NativeMethodError("Unhandled exception: …")`.
* An `Err` is interceptable only when `interceptClass` maps it (the three
  runtime failures); then, if a handler matches, an object of that class is
  allocated, its `detailMessage` field is set to the error's `Display`
  rendering, the stack is cleared, the object pushed, pc moved.  Every other
  error — and an interceptable one with no matching handler — is returned to
  the caller. -/
def handleStep (vm : Vm) (f : Frame) (opPc : Nat) : Except JvmError ExecAction → StepRes
  | .ok .Continue => .cont vm f
  | .ok (.ReturnVal v) => .ret (some v) vm
  | .ok .ReturnVoid => .ret none vm
  | .ok (.Throw excClass excObj) =>
      match findExceptionHandler vm f opPc excClass with
      | none => .crash
      | some none => .err (.NativeMethodError ("Unhandled exception: " ++ excClass)) vm
      | some (some handlerPc) => .cont vm { f with stack := [excObj], pc := handlerPc }
  | .error e =>
      match interceptClass e with
      | none => .err e vm
      | some ec =>
          match findExceptionHandler vm f opPc ec with
          | none => .crash
          | some none => .err e vm
          | some (some handlerPc) =>
              let (excId, heap1) := vm.heap.allocObject ec
              let msg : JvmValue := .StringRef (jvmErrorToString e)
              match heap1.withObject excId
                  (fun o => { o with fields := insertField o.fields "detailMessage" msg }) with
              | .error e2 => .err e2 { vm with heap := heap1 }
              | .ok heap2 =>
                  .cont { vm with heap := heap2 }
                    { f with stack := [.ObjectRef excId], pc := handlerPc }

/-- One iteration of the `loop` in `Vm::interpret`: remember `op_pc`, fetch
the opcode byte (advancing pc), run `exec_one`, dispatch its outcome. -/
def interpretStep (vm : Vm) (f : Frame) : StepRes :=
  let opPc := f.pc
  match f.readU8 with
  | none => .crash
  | some (op, f1) =>
      match execOne vm f1 op opPc with
      | .ok a vm1 f2 => handleStep vm1 f2 opPc (.ok a)
      | .err e vm1 f2 => handleStep vm1 f2 opPc (.error e)
      | .crash => .crash
      | .notModelled => .notModelled

/-- Iterate `interpretStep` at most `n` times, exposing the intermediate
looping states (`cont`); used to state per-point invariants of a run. -/
def stepN : Nat → Vm → Frame → StepRes
  | 0, vm, f => .cont vm f
  | n + 1, vm, f =>
      match interpretStep vm f with
      | .cont vm1 f1 => stepN n vm1 f1
      | r => r

/-- Final outcome of `Vm::interpret` / `Vm::execute`.  `fuelOut` marks an
exhausted iteration budget (the source's `loop` has no bound). -/
inductive RunRes where
  | ok (v : Option JvmValue) (vm : Vm)
  | err (e : JvmError) (vm : Vm)
  | crash
  | notModelled
  | fuelOut

/-- From `mod.rs`, `Vm::interpret`: run the dispatch loop to completion, with fuel
bounding the number of iterations. -/
def interpretN : Nat → Vm → Frame → RunRes
  | 0, _, _ => .fuelOut
  | n + 1, vm, f =>
      match interpretStep vm f with
      | .cont vm1 f1 => interpretN n vm1 f1
      | .ret v vm1 => .ok v vm1
      | .err e vm1 => .err e vm1
      | .crash => .crash
      | .notModelled => .notModelled

/-- The argument-installation loop of `Vm::execute`
(`for (i, arg) in args { if i < locals.len() { locals[i] = arg } }`):
overwrite the leading local slots with the arguments in order, dropping
arguments beyond `max_locals`. -/
def setArgs : List JvmValue → List JvmValue → List JvmValue
  | locals, [] => locals
  | [], _ => []
  | _ :: ls, a :: rest => a :: setArgs ls rest

/-- From `mod.rs`, `Vm::execute`: resolve the class by name (falling back to the
native bridge when unknown), resolve the method BY NAME ONLY via
`find_method_by_name`, route `ACC_NATIVE` methods to the bridge, require a
`Code` attribute otherwise, build the frame (`max_locals` zero-int locals
overwritten by the arguments in order, empty stack) and interpret it. -/
def execute (vm : Vm) (className methodName : String) (args : List JvmValue)
    (fuel : Nat) : RunRes :=
  match vm.findClassIndex className with
  | none =>
      match vm.natives className methodName "" args with
      | .ok v => .ok v vm
      | .error e => .err e vm
  | some classIdx =>
      match vm.classes.get? classIdx with
      | none => .crash  -- unreachable: findClassIndex yields an in-range index
      | some c =>
          match c.findMethodByName methodName with
          | none => .err (.MethodNotFound (className ++ "::" ++ methodName)) vm
          | some m =>
              if m.accessFlags &&& ACC_NATIVE ≠ 0 then
                match vm.natives className methodName
                    (((c.getUtf8 m.descriptorIndex).toOption).getD "()V") args with
                | .ok v => .ok v vm
                | .error e => .err e vm
              else
                match m.code with
                | none =>
                    .err (.MethodNotFound (className ++ "::" ++ methodName ++ " has no Code")) vm
                | some codeAttr =>
                    let f : Frame :=
                      { stack := []
                        locals := setArgs (List.replicate codeAttr.maxLocals (.Int 0)) args
                        code := codeAttr.code
                        pc := 0
                        classIdx := classIdx
                        exceptionTable := codeAttr.exceptionTable }
                    interpretN fuel vm f

/-! ## Heap-identity lemmas (claim C6) -/

/-- With an empty free list, a run of allocations appends live slots in order
and hands out the consecutive indices starting at the current length. -/
theorem SlabHeap.allocAll_of_no_free {α : Type} (vs : List α) (h : SlabHeap α)
    (hfree : h.freeHead = none) (hlen : h.slots.length + vs.length ≤ 2 ^ 32) :
    (h.allocAll vs).1 = List.range' h.slots.length vs.length ∧
    (h.allocAll vs).2 = ⟨h.slots ++ vs.map HeapSlot.live, none⟩ := by
  induction vs generalizing h with
  | nil =>
      cases h with
      | mk slots freeHead =>
        simp_all [SlabHeap.allocAll, List.range']
  | cons v vs ih =>
      have hlt : h.slots.length < 2 ^ 32 := by
        have := hlen; simp at this; omega
      have halloc : h.alloc v = (h.slots.length, ⟨h.slots ++ [.live v], none⟩) := by
        simp [SlabHeap.alloc, hfree]
        omega
      have ih1 := ih ⟨h.slots ++ [.live v], none⟩ rfl (by simp; simp at hlen; omega)
      simp only [SlabHeap.allocAll, halloc]
      refine ⟨?_, ?_⟩
      · simp only [ih1.1]
        simp [List.range']
      · simp only [ih1.2]
        simp

/-- Claim C6, part (i) in closed form over sequences that start from the empty
slab: handle `i` of the run is `i`, and `get` on it returns the `i`-th value
allocated. -/
theorem SlabHeap.get_allocAll {α : Type} (vs : List α) (i id : Nat) (v : α)
    (hlen : vs.length ≤ 2 ^ 32)
    (hid : ((SlabHeap.new α).allocAll vs).1.get? i = some id)
    (hv : vs.get? i = some v) :
    ((SlabHeap.new α).allocAll vs).2.get id = .ok v := by
  obtain ⟨h1, h2⟩ := SlabHeap.allocAll_of_no_free vs (SlabHeap.new α) rfl (by simp [SlabHeap.new]; omega)
  have hi : i < vs.length := by
    by_contra hge
    rw [h1] at hid
    rw [List.get?_eq_getElem?, List.getElem?_eq_none] at hid
    · simp at hid
    · simpa [SlabHeap.new] using Nat.le_of_not_lt hge
  have hid2 : id = i := by
    rw [h1] at hid
    rw [List.get?_eq_getElem?, List.getElem?_range'] at hid
    · simp [SlabHeap.new] at hid
      omega
    · simpa [SlabHeap.new] using hi
  subst hid2
  rw [h2]
  simp only [SlabHeap.get, SlabHeap.new]
  rw [List.get?_eq_getElem?]
  simp only [List.nil_append]
  rw [List.getElem?_map]
  rw [List.get?_eq_getElem?] at hv
  simp [hv]

/-- After `free id`, `get id` fails with `NullPointerException` — whether the
handle was in range (the slot is now `Free`) or not (the lookup misses). -/
theorem SlabHeap.get_free_self {α : Type} (h : SlabHeap α) (id : Nat) :
    (h.free id).get id = .error .NullPointerException := by
  by_cases hid : id < h.slots.length
  · simp only [SlabHeap.free, hid, if_pos]
    simp [SlabHeap.get, List.get?_eq_getElem?, List.getElem?_set, hid]
  · simp only [SlabHeap.free, hid, if_neg, not_false_iff]
    simp [SlabHeap.get, List.get?_eq_getElem?, List.getElem?_eq_none (Nat.le_of_not_lt hid)]

/-- An allocation performed immediately after freeing an in-range handle
reuses exactly that handle. -/
theorem SlabHeap.alloc_after_free {α : Type} (h : SlabHeap α) (v : α) (id : Nat)
    (hid : id < h.slots.length) : ((h.free id).alloc v).1 = id := by
  simp [SlabHeap.free, hid, SlabHeap.alloc]

/-- C6: For the slab heap (the object and the array slab are both instances of
`SlabHeap`): (i) after any sequence of allocations without frees — any run
that starts from the fresh slab and stays within the `u32` handle space —
`get h` returns the value passed to the `alloc` that produced handle `h`;
(ii) after `free h`, a subsequent `get h` fails with `NullPointerException`;
(iii) an `alloc` performed immediately after `free h` of a live-range handle
returns the same handle `h`. -/
theorem c6_heap_identity :
    (∀ (α : Type) (vs : List α) (i id : Nat) (v : α),
        vs.length ≤ 2 ^ 32 →
        ((SlabHeap.new α).allocAll vs).1.get? i = some id →
        vs.get? i = some v →
        ((SlabHeap.new α).allocAll vs).2.get id = .ok v) ∧
    (∀ (α : Type) (h : SlabHeap α) (id : Nat),
        (h.free id).get id = .error .NullPointerException) ∧
    (∀ (α : Type) (h : SlabHeap α) (v : α) (id : Nat),
        id < h.slots.length → ((h.free id).alloc v).1 = id) :=
  ⟨fun _ vs i id v h1 h2 h3 => SlabHeap.get_allocAll vs i id v h1 h2 h3,
   fun _ h id => SlabHeap.get_free_self h id,
   fun _ h v id hid => SlabHeap.alloc_after_free h v id hid⟩

/-- Witness for C6 at a concrete run: allocate `[5, 7]` into a fresh slab —
handle 1 yields 7; free handle 0 — `get 0` now fails; re-allocate — handle 0
comes back. -/
theorem c6_heap_identity_witness :
    ((SlabHeap.new Nat).allocAll [5, 7]).2.get 1 = .ok 7 ∧
    ((((SlabHeap.new Nat).allocAll [5, 7]).2.free 0).get 0 = .error .NullPointerException) ∧
    ((((SlabHeap.new Nat).allocAll [5, 7]).2.free 0).alloc 9).1 = 0 :=
  ⟨c6_heap_identity.1 Nat [5, 7] 1 1 7 (by decide) (by decide) (by decide),
   c6_heap_identity.2.1 Nat ((SlabHeap.new Nat).allocAll [5, 7]).2 0,
   c6_heap_identity.2.2 Nat ((SlabHeap.new Nat).allocAll [5, 7]).2 9 0 (by decide)⟩

/-! ## Reification lemmas (claim C1) -/

/-- A successful `get` is exactly a live slot at that handle. -/
theorem SlabHeap.get_ok_iff {α : Type} (h : SlabHeap α) (id : Nat) (v : α) :
    h.get id = .ok v ↔ h.slots.get? id = some (.live v) := by
  unfold SlabHeap.get
  cases hs : h.slots.get? id with
  | none => simp
  | some slot => cases slot <;> simp

/-- On a well-formed slab (in-range free head, length below the `u32` wrap),
`alloc` returns a handle whose slot holds exactly the allocated value. -/
theorem SlabHeap.get_alloc {α : Type} (h : SlabHeap α) (v : α)
    (hlen : h.slots.length < 2 ^ 32)
    (hfree : ∀ idx, h.freeHead = some idx → idx < h.slots.length) :
    (h.alloc v).2.get (h.alloc v).1 = .ok v := by
  cases hf : h.freeHead with
  | none =>
      rw [SlabHeap.get_ok_iff]
      simp only [SlabHeap.alloc, hf]
      rw [List.get?_eq_getElem?, Nat.mod_eq_of_lt hlen]
      exact List.getElem?_concat_length _ _
  | some idx =>
      have hidx := hfree idx hf
      rw [SlabHeap.get_ok_iff]
      simp only [SlabHeap.alloc, hf]
      simp [List.get?_eq_getElem?, List.getElem?_set, hidx]

/-- Unfolded form of `Heap.allocObject` (its `let`-pattern as projections). -/
theorem Heap.allocObject_eq (hp : Heap) (cn : String) :
    hp.allocObject cn =
      ((hp.objects.alloc ⟨cn, []⟩).1,
        { hp with objects := (hp.objects.alloc ⟨cn, []⟩).2 }) := by
  unfold Heap.allocObject
  rcases hq : hp.objects.alloc ⟨cn, []⟩ with ⟨a, b⟩
  simp [hq]

/-- Running `get_object_mut`-then-mutate (`withObject`) succeeds on a live handle and
afterwards `get_object` sees the updated object. -/
theorem Heap.withObject_spec (hp : Heap) (id : Nat) (g : JvmObject → JvmObject)
    (obj : JvmObject) (hget : hp.getObject id = .ok obj) :
    hp.withObject id g =
      .ok { hp with objects := ⟨hp.objects.slots.set id (.live (g obj)), hp.objects.freeHead⟩ } ∧
    Heap.getObject
      { hp with objects := ⟨hp.objects.slots.set id (.live (g obj)), hp.objects.freeHead⟩ }
      id = .ok (g obj) := by
  unfold Heap.getObject at hget
  have hlt : id < hp.objects.slots.length := by
    rw [SlabHeap.get_ok_iff] at hget
    rw [List.get?_eq_getElem?] at hget
    exact (List.getElem?_eq_some.mp hget).1
  constructor
  · unfold Heap.withObject
    rw [hget]
  · unfold Heap.getObject
    rw [SlabHeap.get_ok_iff]
    simp [List.get?_eq_getElem?, List.getElem?_set, hlt]

/-- Existential form of `Heap.withObject_spec`. -/
theorem Heap.withObject_exists (hp : Heap) (id : Nat) (g : JvmObject → JvmObject)
    (obj : JvmObject) (hget : hp.getObject id = .ok obj) :
    ∃ hp2, hp.withObject id g = .ok hp2 ∧ hp2.getObject id = .ok (g obj) :=
  ⟨_, (Heap.withObject_spec hp id g obj hget).1, (Heap.withObject_spec hp id g obj hget).2⟩

/-- C1: exactly the three runtime failures `NullPointerException`,
`DivisionByZero` and `ArrayIndexOutOfBounds` are interceptable by a frame's
exception table.  (1) `interceptClass` maps precisely those three errors (to
the conventional exception-class names) and nothing else; (2) when such an
error occurs at an opcode covered by a matching handler, an object of the
corresponding class is allocated, its `detailMessage` field holds the error's
formatted description, and the loop continues at the handler with the
exception object as the only stack entry; (3) every other error is returned
to the host caller unchanged — terminating interpretation of the frame —
whatever the frame's exception table says. -/
theorem c1_interceptable_errors :
    (∀ (e : JvmError) (c : String),
        interceptClass e = some c ↔
          (e = .NullPointerException ∧ c = "java/lang/NullPointerException") ∨
          (e = .DivisionByZero ∧ c = "java/lang/ArithmeticException") ∨
          (∃ i l, e = .ArrayIndexOutOfBounds i l ∧
            c = "java/lang/ArrayIndexOutOfBoundsException")) ∧
    (∀ (vm : Vm) (f : Frame) (opPc : Nat) (e : JvmError) (ec : String) (h : Nat),
        vm.heap.objects.slots.length < 2 ^ 32 →
        (∀ idx, vm.heap.objects.freeHead = some idx →
          idx < vm.heap.objects.slots.length) →
        interceptClass e = some ec →
        findExceptionHandler vm f opPc ec = some (some h) →
        ∃ excId vm1,
          handleStep vm f opPc (.error e) =
            .cont vm1 { f with stack := [.ObjectRef excId], pc := h } ∧
          ∃ obj, vm1.heap.getObject excId = .ok obj ∧
            obj.className = ec ∧
            obj.fields.lookup "detailMessage" =
              some (.StringRef (jvmErrorToString e))) ∧
    (∀ (vm : Vm) (f : Frame) (opPc : Nat) (e : JvmError),
        interceptClass e = none → handleStep vm f opPc (.error e) = .err e vm) := by
  refine ⟨?_, ?_, ?_⟩
  · intro e c
    cases e <;> simp [interceptClass] <;> tauto
  · intro vm f opPc e ec h hlen hfree hic hfind
    have hae := Heap.allocObject_eq vm.heap ec
    have halloc : ({ vm.heap with objects := (vm.heap.objects.alloc ⟨ec, []⟩).2 } : Heap).getObject
        (vm.heap.objects.alloc ⟨ec, []⟩).1 = .ok ⟨ec, []⟩ := by
      unfold Heap.getObject
      exact SlabHeap.get_alloc vm.heap.objects ⟨ec, []⟩ hlen hfree
    obtain ⟨hp2, hw, hg2⟩ := Heap.withObject_exists _ _
      (fun o => { o with fields := insertField o.fields "detailMessage" (JvmValue.StringRef (jvmErrorToString e)) })
      _ halloc
    have hstep : handleStep vm f opPc (.error e) =
        .cont { vm with heap := hp2 }
          { f with stack := [.ObjectRef (vm.heap.objects.alloc ⟨ec, []⟩).1], pc := h } := by
      simp only [handleStep, hic, hfind, hae]
      rw [hw]
    exact ⟨_, _, hstep, _, hg2, rfl, by simp [insertField]⟩
  · intro vm f opPc e hic
    simp [handleStep, hic]

/-- A native bridge that resolves nothing, used by the concrete fixtures. -/
def noNatives : String → String → String → List JvmValue → Except JvmError (Option JvmValue) :=
  fun c _ _ _ => .error (.ClassNotFound c)

/-- Fixture: a VM with no loaded classes and a fresh heap. -/
def vmW1 : Vm := { classes := [], heap := Heap.new, natives := noNatives, statics := [] }

/-- Fixture: a frame sitting just past an `idiv` opcode at pc 0, with a
finally-style (catch-all) handler at pc 7 covering `[0, 1)`. -/
def fW1 : Frame :=
  { stack := [], locals := [], code := [0x6C], pc := 1, classIdx := 0,
    exceptionTable := [⟨0, 1, 7, 0⟩] }

/-- Witness for C1: a `DivisionByZero` raised at pc 0 of `fW1` is reified into
a `java/lang/ArithmeticException` object whose `detailMessage` reads
"ArithmeticException: / by zero"; control continues at the handler. -/
theorem c1_interceptable_errors_witness :
    ∃ excId vm1,
      handleStep vmW1 fW1 0 (.error .DivisionByZero) =
        .cont vm1 { fW1 with stack := [.ObjectRef excId], pc := 7 } ∧
      ∃ obj, vm1.heap.getObject excId = .ok obj ∧
        obj.className = "java/lang/ArithmeticException" ∧
        obj.fields.lookup "detailMessage" =
          some (.StringRef (jvmErrorToString .DivisionByZero)) :=
  c1_interceptable_errors.2.1 vmW1 fW1 0 .DivisionByZero
    "java/lang/ArithmeticException" 7 (by norm_num [vmW1, Heap.new, SlabHeap.new])
    (by intro idx hidx; simp [vmW1, Heap.new, SlabHeap.new] at hidx) rfl rfl

/-! ## Handler-search characterization (claim C2) -/

/-- The matching condition of one exception-table entry, as the spec words it:
the entry covers the opcode pc (`start_pc ≤ pc < end_pc`) and either is
finally-style (`catch_type == 0`) or resolves to a catch class of which the
thrown class is a subclass (an entry whose catch class fails to resolve
matches nothing). -/
def entryMatches (vm : Vm) (c : ClassFile) (pc : Nat) (excClass : String)
    (en : ExceptionTableEntry) : Bool :=
  decide (en.startPc ≤ pc ∧ pc < en.endPc) &&
    (en.catchType == 0 ||
      (match c.getClassName en.catchType with
       | .ok catchName => isSubclass vm vm.classes.length excClass catchName
       | .error _ => false))

/-- The handler-search loop selects exactly the FIRST matching entry of the
table, in table order. -/
theorem findHandlerLoop_eq_find (vm : Vm) (c : ClassFile) (classIdx pc : Nat)
    (excClass : String) (table : List ExceptionTableEntry)
    (hc : vm.classes.get? classIdx = some c) :
    findHandlerLoop vm classIdx pc excClass table =
      some ((table.find? (entryMatches vm c pc excClass)).map ExceptionTableEntry.handlerPc) := by
  rw [List.get?_eq_getElem?] at hc
  induction table with
  | nil => rfl
  | cons en rest ih =>
      by_cases hcov : en.startPc ≤ pc ∧ pc < en.endPc
      · by_cases hct : en.catchType = 0
        · simp [findHandlerLoop, List.find?, entryMatches, hcov, hct]
        · have hctb : (en.catchType == 0) = false := by simp [hct]
          cases hgc : c.getClassName en.catchType with
          | ok catchName =>
              by_cases hsub : isSubclass vm vm.classes.length excClass catchName = true
              · simp [findHandlerLoop, List.find?, entryMatches, hcov, hct, hc, hgc, hsub]
              · simp only [Bool.not_eq_true] at hsub
                simp [findHandlerLoop, List.find?, entryMatches, hcov, hct, hctb, hc, hgc, hsub, ih]
          | error e =>
              simp [findHandlerLoop, List.find?, entryMatches, hcov, hct, hctb, hc, hgc, ih]
      · simp [findHandlerLoop, List.find?, entryMatches, hcov, ih]

/-- Fixture: constant pool of class `C`, carrying a `Class` entry for
`java/lang/RuntimeException` at index 3. -/
def cpC2 : List CpEntry :=
  [.Unused, .Class 2, .Utf8 "C", .Class 4, .Utf8 "java/lang/RuntimeException"]

/-- Fixture: the class `C` owning `cpC2`. -/
def clsC2 : ClassFile :=
  { minorVersion := 0, majorVersion := 52, constantPool := cpC2, accessFlags := 0x21,
    thisClass := 1, superClass := 0, interfaces := [], fields := [],
    methods := [], bootstrapMethods := [] }

/-- Fixture: a VM with `clsC2` loaded. -/
def vmC2 : Vm := { classes := [clsC2], heap := Heap.new, natives := noNatives, statics := [] }

/-- Fixture: `iconst_1; iconst_0; idiv; nop; bipush 42; ireturn`, where the
table entry `[0, 3) → handler 4` catches `java/lang/RuntimeException` (pool
index 3). -/
def frameC2 : Frame :=
  { stack := [], locals := [], code := [0x04, 0x03, 0x6C, 0x00, 0x10, 42, 0xAC],
    pc := 0, classIdx := 0,
    exceptionTable := [⟨0, 3, 4, 3⟩] }

/-- Fixture: `frameC2` as it stands when a throw is being dispatched at opcode
pc 2. -/
def frameC2mid : Frame := { frameC2 with pc := 3, stack := [.ObjectRef 5] }

/-- C2: (1) the handler search walks the frame's exception table in order and
selects the first entry that covers the opcode pc and whose catch type is 0
or names a class of which the thrown class is a subclass; (2) on a match for
a thrown exception the operand stack is cleared, the exception object is
pushed as the only entry, and the pc moves to `handler_pc`; (3) a thrown
`java/lang/ArithmeticException` is a subclass of `java/lang/RuntimeException`
under the predicate, at every recursion bound; (4) end to end, a
divide-by-zero inside a `[0,3) → 4` region catching
`java/lang/RuntimeException` transfers to the handler and the method returns
`Int 42`. -/
theorem c2_exception_matching :
    (∀ (vm : Vm) (c : ClassFile) (classIdx pc : Nat) (excClass : String)
        (table : List ExceptionTableEntry),
        vm.classes.get? classIdx = some c →
        findHandlerLoop vm classIdx pc excClass table =
          some ((table.find? (entryMatches vm c pc excClass)).map
            ExceptionTableEntry.handlerPc)) ∧
    (∀ (vm : Vm) (f : Frame) (opPc h : Nat) (excClass : String) (excObj : JvmValue),
        findExceptionHandler vm f opPc excClass = some (some h) →
        handleStep vm f opPc (.ok (.Throw excClass excObj)) =
          .cont vm { f with stack := [excObj], pc := h }) ∧
    (∀ (vm : Vm) (fuel : Nat),
        isSubclass vm fuel "java/lang/ArithmeticException"
          "java/lang/RuntimeException" = true) ∧
    (∃ vm1, interpretN 10 vmC2 frameC2 = .ok (some (.Int 42)) vm1) := by
  refine ⟨?_, ?_, ?_, ?_⟩
  · intro vm c classIdx pc excClass table hc
    exact findHandlerLoop_eq_find vm c classIdx pc excClass table hc
  · intro vm f opPc h excClass excObj hfind
    simp only [handleStep, hfind]
  · intro vm fuel
    simp [isSubclass, runtimeExcs]
  · exact ⟨_, rfl⟩

/-- Witness for C2 at the fixture: searching `frameC2`'s table for an
`ArithmeticException` thrown at pc 2 finds handler 4, and dispatching the
throw clears the stack, pushes the exception object and jumps there. -/
theorem c2_exception_matching_witness :
    findHandlerLoop vmC2 0 2 "java/lang/ArithmeticException" frameC2.exceptionTable =
      some (some 4) ∧
    handleStep vmC2 frameC2mid 2
        (.ok (.Throw "java/lang/ArithmeticException" (.ObjectRef 5))) =
      .cont vmC2 { frameC2mid with stack := [.ObjectRef 5], pc := 4 } := by
  constructor
  · rw [c2_exception_matching.1 vmC2 clsC2 0 2 "java/lang/ArithmeticException"
      frameC2.exceptionTable rfl]
    rfl
  · exact c2_exception_matching.2.1 vmC2 frameC2mid 2 4 "java/lang/ArithmeticException"
      (.ObjectRef 5) rfl

/-! ## The subclass predicate, characterized (claim C3) -/

/-- The relation `Vm::is_subclass` actually decides, written out as a
disjunction: reflexivity; everything below `java/lang/Object`; the eleven
hard-coded well-known classes (Object included) below `java/lang/Throwable`;
the well-known classes other than `Throwable` — Object again included — below
`java/lang/Exception`; the seven runtime-exception classes below
`java/lang/RuntimeException`; the array variant below
`java/lang/IndexOutOfBoundsException`; and, only when the parent is neither
`java/lang/Exception` nor `java/lang/RuntimeException` (those two branches
answer without consulting loaded classes), one declared-super step from a
loaded class followed by the same relation. -/
def specSubclass (vm : Vm) : Nat → String → String → Prop
  | fuel, child, parent =>
      child = parent ∨
      parent = "java/lang/Object" ∨
      (parent = "java/lang/Throwable" ∧ child ∈ wellKnown) ∨
      (parent = "java/lang/Exception" ∧ child ∈ wellKnown ∧ child ≠ "java/lang/Throwable") ∨
      (parent = "java/lang/RuntimeException" ∧ child ∈ runtimeExcs) ∨
      (parent = "java/lang/IndexOutOfBoundsException" ∧
        child = "java/lang/ArrayIndexOutOfBoundsException") ∨
      (parent ≠ "java/lang/Exception" ∧ parent ≠ "java/lang/RuntimeException" ∧
        match fuel with
        | 0 => False
        | fuel1 + 1 =>
            ∃ idx c sn, vm.findClassIndex child = some idx ∧
              vm.classes.get? idx = some c ∧ c.superClassName = some sn ∧
              specSubclass vm fuel1 sn parent)

/-- The predicate `is_subclass` coincides with `specSubclass` at every recursion bound. -/
theorem isSubclass_iff_spec (vm : Vm) :
    ∀ (fuel : Nat) (child parent : String),
      isSubclass vm fuel child parent = true ↔ specSubclass vm fuel child parent := by
  have main : ∀ (fuel : Nat),
      (∀ child parent, isSubclass vm fuel child parent = true ↔ specSubclass vm fuel child parent) →
      ∀ child parent,
        isSubclass vm (fuel + 1) child parent = true ↔ specSubclass vm (fuel + 1) child parent := by
    intro n ih child parent
    rw [isSubclass, specSubclass]
    by_cases h1 : child = parent
    · simp [h1]
    by_cases h2 : parent = "java/lang/Object"
    · simp [h1, h2]
    by_cases h3 : parent = "java/lang/Throwable" ∧ child ∈ wellKnown
    · simp [h1, h2, h3]
    by_cases h4 : parent = "java/lang/Exception"
    · subst h4
      rw [if_neg h1, if_neg (by decide), if_neg h3, if_pos rfl]
      simp only [decide_eq_true_eq]
      constructor
      · intro h
        exact Or.inr (Or.inr (Or.inr (Or.inl ⟨trivial, h.2, h.1⟩)))
      · rintro (h | h | h | h | h | h | h)
        · exact absurd h h1
        · exact absurd h (by decide)
        · exact absurd h.1 (by decide)
        · exact ⟨h.2.2, h.2.1⟩
        · exact absurd h.1 (by decide)
        · exact absurd h.1 (by decide)
        · exact absurd rfl h.1
    by_cases h5 : parent = "java/lang/RuntimeException"
    · subst h5
      rw [if_neg h1, if_neg (by decide), if_neg h3, if_neg (by decide), if_pos rfl]
      simp only [decide_eq_true_eq]
      constructor
      · intro h
        exact Or.inr (Or.inr (Or.inr (Or.inr (Or.inl ⟨trivial, h⟩))))
      · rintro (h | h | h | h | h | h | h)
        · exact absurd h h1
        · exact absurd h (by decide)
        · exact absurd h.1 (by decide)
        · exact absurd h.1 (by decide)
        · exact h.2
        · exact absurd h.1 (by decide)
        · exact absurd rfl h.2.1
    by_cases h6 : parent = "java/lang/IndexOutOfBoundsException" ∧
        child = "java/lang/ArrayIndexOutOfBoundsException"
    · simp [h1, h2, h3, h4, h5, h6]
    · simp only [List.get?_eq_getElem?]
      cases hf : vm.findClassIndex child with
      | none => simp [hf, h1, h2, h3, h4, h5, h6]
      | some idx =>
          cases hg : vm.classes[idx]? with
          | none => simp [hf, hg, h1, h2, h3, h4, h5, h6]
          | some c =>
              cases hs : c.superClassName with
              | none => simp [hf, hg, hs, h1, h2, h3, h4, h5, h6]
              | some sn => simp [hf, hg, hs, h1, h2, h3, h4, h5, h6, ih]
  intro fuel
  induction fuel with
  | zero =>
      intro child parent
      rw [isSubclass, specSubclass]
      by_cases h1 : child = parent
      · simp [h1]
      by_cases h2 : parent = "java/lang/Object"
      · simp [h1, h2]
      by_cases h3 : parent = "java/lang/Throwable" ∧ child ∈ wellKnown
      · simp [h1, h2, h3]
      by_cases h4 : parent = "java/lang/Exception"
      · subst h4
        rw [if_neg h1, if_neg (by decide), if_neg h3, if_pos rfl]
        simp only [decide_eq_true_eq]
        constructor
        · intro h
          exact Or.inr (Or.inr (Or.inr (Or.inl ⟨trivial, h.2, h.1⟩)))
        · rintro (h | h | h | h | h | h | h)
          · exact absurd h h1
          · exact absurd h (by decide)
          · exact absurd h.1 (by decide)
          · exact ⟨h.2.2, h.2.1⟩
          · exact absurd h.1 (by decide)
          · exact absurd h.1 (by decide)
          · exact absurd rfl h.1
      by_cases h5 : parent = "java/lang/RuntimeException"
      · subst h5
        rw [if_neg h1, if_neg (by decide), if_neg h3, if_neg (by decide), if_pos rfl]
        simp only [decide_eq_true_eq]
        constructor
        · intro h
          exact Or.inr (Or.inr (Or.inr (Or.inr (Or.inl ⟨trivial, h⟩))))
        · rintro (h | h | h | h | h | h | h)
          · exact absurd h h1
          · exact absurd h (by decide)
          · exact absurd h.1 (by decide)
          · exact absurd h.1 (by decide)
          · exact h.2
          · exact absurd h.1 (by decide)
          · exact absurd rfl h.2.1
      by_cases h6 : parent = "java/lang/IndexOutOfBoundsException" ∧
          child = "java/lang/ArrayIndexOutOfBoundsException"
      · simp [h1, h2, h3, h4, h5, h6]
      · simp only [List.get?_eq_getElem?]
        cases hf : vm.findClassIndex child with
        | none => simp [hf, h1, h2, h3, h4, h5, h6]
        | some idx =>
            cases hg : vm.classes[idx]? with
            | none => simp [hf, hg, h1, h2, h3, h4, h5, h6]
            | some c =>
                cases hs : c.superClassName with
                | none => simp [hf, hg, hs, h1, h2, h3, h4, h5, h6]
                | some sn => simp [hf, hg, hs, h1, h2, h3, h4, h5, h6]
  | succ n ih => exact main n ih

/-- C3, counterexample: contrary to the claim's "no class outside these
conventional relationships is related (e.g. `java/lang/Object` is not a
subclass of `java/lang/Exception`)", the predicate holds at exactly that
pair — the hard-coded well-known list includes `java/lang/Object`, and the
`java/lang/Exception` branch accepts every well-known class other than
`java/lang/Throwable`. -/
theorem c3_subclass_counterexample :
    isSubclass vmW1 1 "java/lang/Object" "java/lang/Exception" = true := rfl

/-- C3, amended: the subclass predicate holds exactly as `specSubclass`
describes — the claim's characterization corrected on two points forced by
the code: `java/lang/Object` is itself on the hard-coded well-known list (so
it sits below `Throwable` and below `Exception`), and the declared
super-class chain of loaded classes is consulted only when the parent is
neither `java/lang/Exception` nor `java/lang/RuntimeException`, because those
two branches return unconditionally. -/
theorem c3_subclass_characterization (vm : Vm) (fuel : Nat) (child parent : String) :
    isSubclass vm fuel child parent = true ↔ specSubclass vm fuel child parent :=
  isSubclass_iff_spec vm fuel child parent

/-! ## The operand stack and `max_stack` (claim C4) -/

/-- Fixture: a `Code` attribute declaring `max_stack = 0` whose body is
`iconst_0; return`. -/
def codeC4 : CodeAttribute :=
  { maxStack := 0, maxLocals := 0, code := [0x03, 0xB1], exceptionTable := [] }

/-- Fixture: class `C4` with the single static method `m` owning `codeC4`. -/
def clsC4 : ClassFile :=
  { minorVersion := 0, majorVersion := 52,
    constantPool := [.Unused, .Class 2, .Utf8 "C4", .Utf8 "m", .Utf8 "()V"],
    accessFlags := 0x21, thisClass := 1, superClass := 0, interfaces := [],
    fields := [],
    methods := [{ accessFlags := 0x9, nameIndex := 3, descriptorIndex := 4,
                  code := some codeC4 }],
    bootstrapMethods := [] }

/-- Fixture: a VM with `clsC4` loaded. -/
def vmC4 : Vm := { classes := [clsC4], heap := Heap.new, natives := noNatives, statics := [] }

/-- Fixture: the frame `Vm::execute` builds for `C4::m`. -/
def frameC4 : Frame :=
  { stack := [], locals := [], code := codeC4.code, pc := 0, classIdx := 0,
    exceptionTable := [] }

/-- C4, counterexample: `frameC4` is exactly the frame `execute` interprets
for `C4::m`, yet the trace of that execution is NOT bounded by the method's
`max_stack`: after one step the stack holds one value while `max_stack` is 0.
The interpreter never checks the bound. -/
theorem c4_counterexample :
    execute vmC4 "C4" "m" [] 3 = interpretN 3 vmC4 frameC4 ∧
    ¬ (∀ (n : Nat) (vm1 : Vm) (f1 : Frame),
        stepN n vmC4 frameC4 = .cont vm1 f1 →
        f1.stack.length ≤ codeC4.maxStack) := by
  refine ⟨rfl, ?_⟩
  intro hcl
  have h := hcl 1 vmC4 { frameC4 with stack := [.Int 0], pc := 1 } rfl
  simp [codeC4] at h

/-- C4, amended: the operand stack starts empty and `max_stack` is used only
as the initial capacity of the stack vector — `Frame::push` grows the stack
unconditionally, so a method may exceed its declared `max_stack` and still
complete normally (bytecode verification is a stated non-goal): the
`max_stack = 0` method `C4::m` reaches stack depth 1 at its first step and
then returns void. -/
theorem c4_stack_not_bounded :
    stepN 1 vmC4 frameC4 = .cont vmC4 { frameC4 with stack := [.Int 0], pc := 1 } ∧
    codeC4.maxStack = 0 ∧
    interpretN 2 vmC4 frameC4 = .ok none vmC4 ∧
    (∀ (f : Frame) (v : JvmValue), (f.push v).stack.length = f.stack.length + 1) :=
  ⟨rfl, rfl, rfl, fun _ _ => rfl⟩

/-! ## Wrapping arithmetic (claim C5) -/

/-- Behaviour of the shared binary-`int` shape on a well-typed stack. -/
theorem binIntOp_spec (vm : Vm) (f : Frame) (g : Int → Int → Int) (a b : Int)
    (rest : List JvmValue) (hs : f.stack = .Int b :: .Int a :: rest) :
    binIntOp vm f g = .ok .Continue vm { f with stack := .Int (g a b) :: rest } := by
  simp [binIntOp, Frame.popInt, Frame.pop, hs, Frame.push]

/-- Behaviour of the shared binary-`long` shape on a well-typed stack. -/
theorem binLongOp_spec (vm : Vm) (f : Frame) (g : Int → Int → Int) (a b : Int)
    (rest : List JvmValue) (hs : f.stack = .Long b :: .Long a :: rest) :
    binLongOp vm f g = .ok .Continue vm { f with stack := .Long (g a b) :: rest } := by
  simp [binLongOp, Frame.popLong, Frame.pop, hs, Frame.push]

/-- Behaviour of the `long`-shift shape (`int` count above a `long` operand). -/
theorem longShiftOp_spec (vm : Vm) (f : Frame) (g : Int → Int → Int) (a b : Int)
    (rest : List JvmValue) (hs : f.stack = .Int b :: .Long a :: rest) :
    longShiftOp vm f g = .ok .Continue vm { f with stack := .Long (g a b) :: rest } := by
  simp [longShiftOp, Frame.popInt, Frame.popLong, Frame.pop, hs, Frame.push]

/-- Behaviour of the `idiv`/`irem` shape for a nonzero divisor. -/
theorem binIntDivOp_spec (vm : Vm) (f : Frame) (g : Int → Int → Int) (a b : Int)
    (rest : List JvmValue) (hs : f.stack = .Int b :: .Int a :: rest) (hb : b ≠ 0) :
    binIntDivOp vm f g = .ok .Continue vm { f with stack := .Int (g a b) :: rest } := by
  simp [binIntDivOp, Frame.popInt, Frame.pop, hs, Frame.push, hb]

/-- Behaviour of the `idiv`/`irem` shape for a zero divisor: `DivisionByZero`
with both operands consumed. -/
theorem binIntDivOp_zero (vm : Vm) (f : Frame) (g : Int → Int → Int) (a : Int)
    (rest : List JvmValue) (hs : f.stack = .Int 0 :: .Int a :: rest) :
    binIntDivOp vm f g = .err .DivisionByZero vm { f with stack := rest } := by
  simp [binIntDivOp, Frame.popInt, Frame.pop, hs]

/-- Behaviour of the `ldiv`/`lrem` shape for a nonzero divisor. -/
theorem binLongDivOp_spec (vm : Vm) (f : Frame) (g : Int → Int → Int) (a b : Int)
    (rest : List JvmValue) (hs : f.stack = .Long b :: .Long a :: rest) (hb : b ≠ 0) :
    binLongDivOp vm f g = .ok .Continue vm { f with stack := .Long (g a b) :: rest } := by
  simp [binLongDivOp, Frame.popLong, Frame.pop, hs, Frame.push, hb]

/-- Behaviour of the unary-`int` shape (`ineg`). -/
theorem unIntOp_spec (vm : Vm) (f : Frame) (g : Int → Int) (a : Int)
    (rest : List JvmValue) (hs : f.stack = .Int a :: rest) :
    unIntOp vm f g = .ok .Continue vm { f with stack := .Int (g a) :: rest } := by
  simp [unIntOp, Frame.popInt, Frame.pop, hs, Frame.push]

/-- Behaviour of the unary-`long` shape (`lneg`). -/
theorem unLongOp_spec (vm : Vm) (f : Frame) (g : Int → Int) (a : Int)
    (rest : List JvmValue) (hs : f.stack = .Long a :: rest) :
    unLongOp vm f g = .ok .Continue vm { f with stack := .Long (g a) :: rest } := by
  simp [unLongOp, Frame.popLong, Frame.pop, hs, Frame.push]

/-- The reduction `wrap32` lands in `i32` range, is congruent to its argument mod `2^32`,
and fixes arguments already in range. -/
theorem wrap32_spec (x : Int) :
    -2 ^ 31 ≤ wrap32 x ∧ wrap32 x < 2 ^ 31 ∧ (wrap32 x - x) % 2 ^ 32 = 0 ∧
      (-2 ^ 31 ≤ x → x < 2 ^ 31 → wrap32 x = x) := by
  unfold wrap32
  refine ⟨?_, ?_, ?_, ?_⟩ <;> omega

/-- The reduction `wrap64` lands in `i64` range, is congruent to its argument mod `2^64`,
and fixes arguments already in range. -/
theorem wrap64_spec (x : Int) :
    -2 ^ 63 ≤ wrap64 x ∧ wrap64 x < 2 ^ 63 ∧ (wrap64 x - x) % 2 ^ 64 = 0 ∧
      (-2 ^ 63 ≤ x → x < 2 ^ 63 → wrap64 x = x) := by
  unfold wrap64
  refine ⟨?_, ?_, ?_, ?_⟩ <;> omega

/-- C5: the `int`/`long` arithmetic, bitwise and shift opcode arms compute
wrapping two's-complement results — each arm pushes the `wrap32`/`wrap64`
reduction of the mathematical operation (`tdiv`/`tmod` are Rust's truncating
`/`/`%`; the bitwise `Int` operations are two's-complement), the shift arms
mask the count to its low 5 (int) or 6 (long) bits via `% 32`/`% 64`,
`wrap32`/`wrap64` always produce an in-range value congruent to the exact
result, and in particular `iadd(i32::MAX, 1) = i32::MIN`,
`ineg(i32::MIN) = i32::MIN`, `ladd(i64::MAX, 1) = i64::MIN`,
`ishl(1, 33) = 2`, `lshl(1, 65) = 2`. -/
theorem c5_wrapping_arithmetic :
    (∀ (vm : Vm) (f : Frame) (opPc : Nat) (a b : Int) (rest : List JvmValue),
        f.stack = .Int b :: .Int a :: rest →
        execOne vm f 0x60 opPc =
          .ok .Continue vm { f with stack := .Int (wrap32 (a + b)) :: rest } ∧
        execOne vm f 0x64 opPc =
          .ok .Continue vm { f with stack := .Int (wrap32 (a - b)) :: rest } ∧
        execOne vm f 0x68 opPc =
          .ok .Continue vm { f with stack := .Int (wrap32 (a * b)) :: rest } ∧
        (b ≠ 0 → execOne vm f 0x6C opPc =
          .ok .Continue vm { f with stack := .Int (wrap32 (a.tdiv b)) :: rest }) ∧
        (b ≠ 0 → execOne vm f 0x70 opPc =
          .ok .Continue vm { f with stack := .Int (wrap32 (a.tmod b)) :: rest }) ∧
        execOne vm f 0x7E opPc =
          .ok .Continue vm { f with stack := .Int (Int.land a b) :: rest } ∧
        execOne vm f 0x80 opPc =
          .ok .Continue vm { f with stack := .Int (Int.lor a b) :: rest } ∧
        execOne vm f 0x82 opPc =
          .ok .Continue vm { f with stack := .Int (Int.xor a b) :: rest } ∧
        execOne vm f 0x78 opPc =
          .ok .Continue vm { f with stack := .Int (wrap32 (a * 2 ^ (b % 32).toNat)) :: rest } ∧
        execOne vm f 0x7A opPc =
          .ok .Continue vm { f with stack := .Int (a.fdiv (2 ^ (b % 32).toNat)) :: rest } ∧
        execOne vm f 0x7C opPc =
          .ok .Continue vm
            { f with stack := .Int (wrap32 ((a % 2 ^ 32).fdiv (2 ^ (b % 32).toNat))) :: rest }) ∧
    (∀ (vm : Vm) (f : Frame) (opPc : Nat) (a b : Int) (rest : List JvmValue),
        f.stack = .Long b :: .Long a :: rest →
        execOne vm f 0x61 opPc =
          .ok .Continue vm { f with stack := .Long (wrap64 (a + b)) :: rest } ∧
        execOne vm f 0x65 opPc =
          .ok .Continue vm { f with stack := .Long (wrap64 (a - b)) :: rest } ∧
        execOne vm f 0x69 opPc =
          .ok .Continue vm { f with stack := .Long (wrap64 (a * b)) :: rest } ∧
        (b ≠ 0 → execOne vm f 0x6D opPc =
          .ok .Continue vm { f with stack := .Long (wrap64 (a.tdiv b)) :: rest }) ∧
        (b ≠ 0 → execOne vm f 0x71 opPc =
          .ok .Continue vm { f with stack := .Long (wrap64 (a.tmod b)) :: rest }) ∧
        execOne vm f 0x7F opPc =
          .ok .Continue vm { f with stack := .Long (Int.land a b) :: rest } ∧
        execOne vm f 0x81 opPc =
          .ok .Continue vm { f with stack := .Long (Int.lor a b) :: rest } ∧
        execOne vm f 0x83 opPc =
          .ok .Continue vm { f with stack := .Long (Int.xor a b) :: rest }) ∧
    (∀ (vm : Vm) (f : Frame) (opPc : Nat) (a b : Int) (rest : List JvmValue),
        f.stack = .Int b :: .Long a :: rest →
        execOne vm f 0x79 opPc =
          .ok .Continue vm { f with stack := .Long (wrap64 (a * 2 ^ (b % 64).toNat)) :: rest } ∧
        execOne vm f 0x7B opPc =
          .ok .Continue vm { f with stack := .Long (a.fdiv (2 ^ (b % 64).toNat)) :: rest } ∧
        execOne vm f 0x7D opPc =
          .ok .Continue vm
            { f with stack := .Long (wrap64 ((a % 2 ^ 64).fdiv (2 ^ (b % 64).toNat))) :: rest }) ∧
    (∀ (vm : Vm) (f : Frame) (opPc : Nat) (a : Int) (rest : List JvmValue),
        f.stack = .Int a :: rest →
        execOne vm f 0x74 opPc =
          .ok .Continue vm { f with stack := .Int (wrap32 (-a)) :: rest }) ∧
    (∀ (vm : Vm) (f : Frame) (opPc : Nat) (a : Int) (rest : List JvmValue),
        f.stack = .Long a :: rest →
        execOne vm f 0x75 opPc =
          .ok .Continue vm { f with stack := .Long (wrap64 (-a)) :: rest }) ∧
    (∀ x : Int, -2 ^ 31 ≤ wrap32 x ∧ wrap32 x < 2 ^ 31 ∧ (wrap32 x - x) % 2 ^ 32 = 0) ∧
    (∀ x : Int, -2 ^ 63 ≤ wrap64 x ∧ wrap64 x < 2 ^ 63 ∧ (wrap64 x - x) % 2 ^ 64 = 0) ∧
    wrap32 (2147483647 + 1) = -2147483648 ∧
    wrap32 (-(-2147483648)) = -2147483648 ∧
    wrap64 (9223372036854775807 + 1) = -9223372036854775808 ∧
    wrap32 (1 * 2 ^ ((33 : Int) % 32).toNat) = 2 ∧
    wrap64 (1 * 2 ^ ((65 : Int) % 64).toNat) = 2 := by
  refine ⟨?_, ?_, ?_, ?_, ?_, ?_, ?_, by decide, by decide, by decide, by decide, by decide⟩
  · intro vm f opPc a b rest hs
    exact ⟨binIntOp_spec vm f _ a b rest hs, binIntOp_spec vm f _ a b rest hs,
      binIntOp_spec vm f _ a b rest hs,
      fun hb => binIntDivOp_spec vm f _ a b rest hs hb,
      fun hb => binIntDivOp_spec vm f _ a b rest hs hb,
      binIntOp_spec vm f _ a b rest hs, binIntOp_spec vm f _ a b rest hs,
      binIntOp_spec vm f _ a b rest hs, binIntOp_spec vm f _ a b rest hs,
      binIntOp_spec vm f _ a b rest hs, binIntOp_spec vm f _ a b rest hs⟩
  · intro vm f opPc a b rest hs
    exact ⟨binLongOp_spec vm f _ a b rest hs, binLongOp_spec vm f _ a b rest hs,
      binLongOp_spec vm f _ a b rest hs,
      fun hb => binLongDivOp_spec vm f _ a b rest hs hb,
      fun hb => binLongDivOp_spec vm f _ a b rest hs hb,
      binLongOp_spec vm f _ a b rest hs, binLongOp_spec vm f _ a b rest hs,
      binLongOp_spec vm f _ a b rest hs⟩
  · intro vm f opPc a b rest hs
    exact ⟨longShiftOp_spec vm f _ a b rest hs, longShiftOp_spec vm f _ a b rest hs,
      longShiftOp_spec vm f _ a b rest hs⟩
  · intro vm f opPc a rest hs
    exact unIntOp_spec vm f _ a rest hs
  · intro vm f opPc a rest hs
    exact unLongOp_spec vm f _ a rest hs
  · intro x
    exact ⟨(wrap32_spec x).1, (wrap32_spec x).2.1, (wrap32_spec x).2.2.1⟩
  · intro x
    exact ⟨(wrap64_spec x).1, (wrap64_spec x).2.1, (wrap64_spec x).2.2.1⟩

/-- Witness for C5: on a concrete frame, `iadd` of `i32::MAX` and 1 pushes
`i32::MIN`, and `ishl` of 1 by 33 pushes 2. -/
theorem c5_wrapping_arithmetic_witness :
    execOne vmW1 { fW1 with stack := [.Int 1, .Int 2147483647] } 0x60 0 =
      .ok .Continue vmW1 { fW1 with stack := [.Int (-2147483648)] } ∧
    execOne vmW1 { fW1 with stack := [.Int 33, .Int 1] } 0x78 0 =
      .ok .Continue vmW1 { fW1 with stack := [.Int 2] } := by
  constructor
  · have h := (c5_wrapping_arithmetic.1 vmW1 { fW1 with stack := [.Int 1, .Int 2147483647] }
      0 2147483647 1 [] rfl).1
    rw [h]
    norm_num [wrap32]
  · have h := ((c5_wrapping_arithmetic.1 vmW1 { fW1 with stack := [.Int 33, .Int 1] }
      0 1 33 [] rfl).2.2.2.2.2.2.2.2).1
    rw [h]
    norm_num [wrap32]

/-! ## `makeConcatWithConstants` (claim C7) -/

/-- The argument-collection loop pops exactly the requested number of values,
top of stack first. -/
theorem Frame.popN_spec (vs : List JvmValue) : ∀ (f : Frame) (rest : List JvmValue),
    f.stack = vs ++ rest → f.popN vs.length = .ok vs { f with stack := rest } := by
  induction vs with
  | nil =>
      intro f rest hs
      simp at hs
      simp [Frame.popN]
      cases f
      simp_all
  | cons v vs ih =>
      intro f rest hs
      simp [Frame.popN, Frame.pop, hs, ih]

/-- Fixture: the constant pool for the `invokedynamic` scenario: entry 1 is
the `InvokeDynamic` site, 2 its name-and-type (`makeConcatWithConstants`,
descriptor of two arguments), 5/6 the bootstrap recipe string
`"x=\x01y=\x01"`. -/
def cpC7 : List CpEntry :=
  [.Unused,
   .InvokeDynamic 0 2,
   .NameAndType 3 4,
   .Utf8 "makeConcatWithConstants",
   .Utf8 "(ILjava/lang/String;)Ljava/lang/String;",
   .StringRef 6,
   .Utf8 "x=\x01y=\x01"]

/-- Fixture: the class owning `cpC7`, with one bootstrap-method entry whose
first argument is pool index 5. -/
def clsC7 : ClassFile :=
  { minorVersion := 0, majorVersion := 52, constantPool := cpC7,
    accessFlags := 0x21, thisClass := 0, superClass := 0, interfaces := [],
    fields := [], methods := [],
    bootstrapMethods := [⟨0, [5]⟩] }

/-- Fixture: a VM with `clsC7` loaded. -/
def vmC7 : Vm := { classes := [clsC7], heap := Heap.new, natives := noNatives, statics := [] }

/-- Fixture: `invokedynamic #1; areturn`, entered with the two dynamic
arguments `Int 3` (below) and `Str "ok"` (top) on the stack. -/
def frameC7 : Frame :=
  { stack := [.StringRef "ok", .Int 3], locals := [],
    code := [0xBA, 0x00, 0x01, 0x00, 0x00, 0xB0], pc := 0, classIdx := 0,
    exceptionTable := [] }

/-- C7: `invokedynamic` named `makeConcatWithConstants` pops the descriptor's
argument count of values and pushes the recipe concatenation — each recipe
byte 1 interpolates the next argument through the universal value-to-string
conversion, any other byte is copied literally, trailing unconsumed arguments
are appended in order; the concrete recipe `"x=\x01y=\x01"` with `[Int 3,
Str "ok"]` yields `"x=3y=ok"` (also end to end through the opcode); any other
method name fails with `UnsupportedOpcode(0xBA)` and pops nothing. -/
theorem c7_make_concat :
    (∀ (vm : Vm) (f f1 : Frame) (idx bIdx ntIdx sIdx rIdx : Nat) (c : ClassFile)
        (desc recipe : String) (popped : List JvmValue) (bsm : BootstrapMethodEntry),
        vm.classes.get? f.classIdx = some c →
        c.constantPool.get? idx = some (.InvokeDynamic bIdx ntIdx) →
        c.resolveNameAndType ntIdx = .ok ("makeConcatWithConstants", desc) →
        f.popN (countDescriptorArgs desc) = .ok popped f1 →
        c.bootstrapMethods.get? bIdx = some bsm →
        bsm.arguments.head? = some rIdx →
        c.constantPool.get? rIdx = some (.StringRef sIdx) →
        c.getUtf8 sIdx = .ok recipe →
        doInvokedynamic vm f idx =
          .ok (f1.push (.StringRef (buildConcat recipe popped.reverse)))) ∧
    (∀ (vm : Vm) (f : Frame) (idx bIdx ntIdx : Nat) (c : ClassFile)
        (name desc : String),
        vm.classes.get? f.classIdx = some c →
        c.constantPool.get? idx = some (.InvokeDynamic bIdx ntIdx) →
        c.resolveNameAndType ntIdx = .ok (name, desc) →
        name ≠ "makeConcatWithConstants" →
        doInvokedynamic vm f idx = .err (.UnsupportedOpcode 0xBA) f) ∧
    (∀ (bs : List Nat) (args : List JvmValue) (acc : String) (a : JvmValue),
        concatRecipe (1 :: bs) (a :: args) acc =
          concatRecipe bs args (acc ++ jvmValueToString a)) ∧
    (∀ (bs : List Nat) (acc : String),
        concatRecipe (1 :: bs) [] acc = concatRecipe bs [] acc) ∧
    (∀ (b : Nat) (bs : List Nat) (args : List JvmValue) (acc : String),
        b ≠ 1 →
        concatRecipe (b :: bs) args acc =
          concatRecipe bs args (acc.push (Char.ofNat b))) ∧
    (∀ (args : List JvmValue) (acc : String),
        concatRecipe [] args acc =
          args.foldl (fun a arg => a ++ jvmValueToString arg) acc) ∧
    buildConcat "x=\x01y=\x01" [.Int 3, .StringRef "ok"] = "x=3y=ok" ∧
    (∃ vm1, interpretN 3 vmC7 frameC7 = .ok (some (.StringRef "x=3y=ok")) vm1) := by
  have hbc : buildConcat "x=\x01y=\x01" [.Int 3, .StringRef "ok"] = "x=3y=ok" := by decide
  have hrun : interpretN 3 vmC7 frameC7 =
      .ok (some (.StringRef (buildConcat "x=\x01y=\x01" [.Int 3, .StringRef "ok"]))) vmC7 := rfl
  refine ⟨?_, ?_, ?_, ?_, ?_, ?_, hbc, ⟨vmC7, by rw [hrun, hbc]⟩⟩
  · intro vm f f1 idx bIdx ntIdx sIdx rIdx c desc recipe popped bsm
      hc hcp hnt hpop hbsm harg hrec hutf
    rw [List.get?_eq_getElem?] at hc hcp hrec hbsm
    simp only [doInvokedynamic, List.get?_eq_getElem?, hc, hcp, hnt, hpop, hbsm,
      harg, hrec, hutf, if_pos rfl]
    simp [Except.toOption]
  · intro vm f idx bIdx ntIdx c name desc hc hcp hnt hname
    rw [List.get?_eq_getElem?] at hc hcp
    simp only [doInvokedynamic, List.get?_eq_getElem?, hc, hcp, hnt]
    rw [if_neg hname]
  · intro bs args acc a
    simp [concatRecipe]
  · intro bs acc
    simp [concatRecipe]
  · intro b bs args acc hb
    simp [concatRecipe, hb]
  · intro args acc
    simp [concatRecipe]

/-- Witness for C7: on the fixture, the `invokedynamic` at pool index 1 pops
both arguments and pushes the concatenation. -/
theorem c7_make_concat_witness :
    doInvokedynamic vmC7 frameC7 1 =
      .ok (Frame.push { frameC7 with stack := ([] : List JvmValue) }
        (.StringRef (buildConcat "x=\x01y=\x01"
          ([JvmValue.StringRef "ok", JvmValue.Int 3]).reverse))) :=
  c7_make_concat.1 vmC7 frameC7 { frameC7 with stack := ([] : List JvmValue) }
    1 0 2 6 5 clsC7 "(ILjava/lang/String;)Ljava/lang/String;" "x=\x01y=\x01"
    [JvmValue.StringRef "ok", JvmValue.Int 3] ⟨0, [5]⟩
    rfl rfl rfl rfl rfl rfl rfl rfl

/-! ## `athrow` across frames (claim C8) -/

/-- Fixture: a heap holding one `java/lang/ArithmeticException` object at
handle 0. -/
def heapC8 : Heap :=
  ⟨⟨[.live ⟨"java/lang/ArithmeticException", []⟩], none⟩, SlabHeap.new _⟩

/-- Fixture: a VM with that heap and no classes. -/
def vmC8 : Vm := { classes := [], heap := heapC8, natives := noNatives, statics := [] }

/-- Fixture: `aload_0; athrow` with the exception object in local 0 and an
empty exception table. -/
def frameC8 : Frame :=
  { stack := [], locals := [.ObjectRef 0], code := [0x2A, 0xBF], pc := 0,
    classIdx := 0, exceptionTable := [] }

/-- C8: an `athrow` with no matching entry in the current frame returns
`NativeMethodError("Unhandled exception: <class>")` to the invoking frame
(1, and concretely 4); and since `NativeMethodError` is not one of the three
interceptable errors (3), the caller's dispatch returns it unchanged no
matter what the caller's exception table contains (2) — so an exception
thrown in a callee can never be caught by a caller frame's table. -/
theorem c8_unhandled_athrow_not_interceptable :
    (∀ (vm : Vm) (f : Frame) (opPc : Nat) (excClass : String) (excObj : JvmValue),
        findExceptionHandler vm f opPc excClass = some none →
        handleStep vm f opPc (.ok (.Throw excClass excObj)) =
          .err (.NativeMethodError ("Unhandled exception: " ++ excClass)) vm) ∧
    (∀ (vm : Vm) (f : Frame) (opPc : Nat) (msg : String),
        handleStep vm f opPc (.error (.NativeMethodError msg)) =
          .err (.NativeMethodError msg) vm) ∧
    (∀ msg, interceptClass (.NativeMethodError msg) = none) ∧
    interpretN 3 vmC8 frameC8 =
      .err (.NativeMethodError "Unhandled exception: java/lang/ArithmeticException") vmC8 := by
  refine ⟨?_, ?_, fun _ => rfl, rfl⟩
  · intro vm f opPc excClass excObj hfind
    simp only [handleStep, hfind]
  · intro vm f opPc msg
    simp [handleStep, interceptClass]

/-- Witness for C8: the fixture's `athrow` dispatch returns the
`NativeMethodError`, and a frame whose table even CATCHES
`java/lang/RuntimeException` over the relevant pc (`frameC2mid`) still passes
a `NativeMethodError` through untouched. -/
theorem c8_unhandled_athrow_witness :
    handleStep vmC8 frameC8 1 (.ok (.Throw "java/lang/ArithmeticException" (.ObjectRef 0))) =
      .err (.NativeMethodError ("Unhandled exception: " ++ "java/lang/ArithmeticException")) vmC8 ∧
    handleStep vmC2 frameC2mid 2
        (.error (.NativeMethodError "Unhandled exception: java/lang/ArithmeticException")) =
      .err (.NativeMethodError "Unhandled exception: java/lang/ArithmeticException") vmC2 :=
  ⟨c8_unhandled_athrow_not_interceptable.1 vmC8 frameC8 1
      "java/lang/ArithmeticException" (.ObjectRef 0) rfl,
   c8_unhandled_athrow_not_interceptable.2.1 vmC2 frameC2mid 2
      "Unhandled exception: java/lang/ArithmeticException"⟩

/-! ## Method resolution by name only (claim C9) -/

/-- Helper: `find?` selects the first satisfying element of a decomposed list. -/
theorem find?_append_first {α : Type} (p : α → Bool) (ms1 ms2 : List α) (m : α)
    (hnone : ∀ x ∈ ms1, p x = false) (hm : p m = true) :
    List.find? p (ms1 ++ m :: ms2) = some m := by
  induction ms1 with
  | nil => simp [List.find?, hm]
  | cons x xs ih =>
      have hx := hnone x (by simp)
      simp only [List.cons_append, List.find?, hx]
      exact ih (fun y hy => hnone y (by simp [hy]))

/-- Fixture: `foo(I)I { iconst_1; ireturn }`. -/
def mC9a : MethodInfo :=
  { accessFlags := 0x9, nameIndex := 3, descriptorIndex := 4,
    code := some { maxStack := 1, maxLocals := 0, code := [0x04, 0xAC], exceptionTable := [] } }

/-- Fixture: the overload `foo()I { iconst_2; ireturn }`, declared second. -/
def mC9b : MethodInfo :=
  { accessFlags := 0x9, nameIndex := 3, descriptorIndex := 5,
    code := some { maxStack := 1, maxLocals := 0, code := [0x05, 0xAC], exceptionTable := [] } }

/-- Fixture: class `C9` declaring both overloads of `foo`. -/
def clsC9 : ClassFile :=
  { minorVersion := 0, majorVersion := 52,
    constantPool := [.Unused, .Class 2, .Utf8 "C9", .Utf8 "foo", .Utf8 "(I)I", .Utf8 "()I"],
    accessFlags := 0x21, thisClass := 1, superClass := 0, interfaces := [],
    fields := [], methods := [mC9a, mC9b], bootstrapMethods := [] }

/-- Fixture: a VM with `clsC9` loaded. -/
def vmC9 : Vm := { classes := [clsC9], heap := Heap.new, natives := noNatives, statics := [] }

/-- C9: method resolution ignores the descriptor: `find_method_by_name`
returns the FIRST method whose name matches, whatever the descriptors are
(1); on the fixture, both overloads are named `foo` with distinct descriptors
(3–7), resolution picks the first (2), and `execute` therefore runs
`foo(I)I`'s body — returning `Int 1`, never the second overload's `Int 2` —
both with no arguments and with the `Int` argument the second overload could
not take (8–9). -/
theorem c9_resolution_by_name_only :
    (∀ (c : ClassFile) (name : String) (ms1 ms2 : List MethodInfo) (m : MethodInfo),
        c.methods = ms1 ++ m :: ms2 →
        (∀ m1 ∈ ms1, ((c.getUtf8 m1.nameIndex).toOption == some name) = false) →
        ((c.getUtf8 m.nameIndex).toOption == some name) = true →
        c.findMethodByName name = some m) ∧
    clsC9.findMethodByName "foo" = some mC9a ∧
    clsC9.getUtf8 mC9a.nameIndex = .ok "foo" ∧
    clsC9.getUtf8 mC9b.nameIndex = .ok "foo" ∧
    clsC9.getUtf8 mC9a.descriptorIndex = .ok "(I)I" ∧
    clsC9.getUtf8 mC9b.descriptorIndex = .ok "()I" ∧
    mC9a.descriptorIndex ≠ mC9b.descriptorIndex ∧
    execute vmC9 "C9" "foo" [] 3 = .ok (some (.Int 1)) vmC9 ∧
    execute vmC9 "C9" "foo" [.Int 7] 3 = .ok (some (.Int 1)) vmC9 := by
  refine ⟨?_, rfl, rfl, rfl, rfl, rfl, by decide, rfl, rfl⟩
  intro c name ms1 ms2 m hms hnone hm
  unfold ClassFile.findMethodByName
  rw [hms]
  exact find?_append_first _ ms1 ms2 m hnone hm

/-- Witness for C9: the general first-match law applied to `clsC9`'s method
list split `[] ++ mC9a :: [mC9b]`. -/
theorem c9_resolution_by_name_only_witness :
    clsC9.findMethodByName "foo" = some mC9a :=
  c9_resolution_by_name_only.1 clsC9 "foo" [] [mC9b] mC9a rfl
    (fun m1 hm1 => absurd hm1 (by simp)) rfl

/-! ## Reference equality (claim C10) -/

/-- C10: `refs_equal` holds only for `Null`/`Null`, equal object handles, or
equal array handles (1); it is false for EVERY pair of string references,
identical content included (2); and `if_acmpeq` on two string references
falls through — the pc advances past the offset operand and no branch is
taken (3). -/
theorem c10_reference_equality :
    (∀ (a b : JvmValue), refsEqual a b = true ↔
        (a = .Null ∧ b = .Null) ∨
        (∃ x, a = .ObjectRef x ∧ b = .ObjectRef x) ∨
        (∃ x, a = .ArrayRef x ∧ b = .ArrayRef x)) ∧
    (∀ s t, refsEqual (.StringRef s) (.StringRef t) = false) ∧
    (∀ (vm : Vm) (f : Frame) (opPc : Nat) (s t : String) (rest : List JvmValue)
        (c1 c2 : Nat),
        f.code.get? f.pc = some c1 → f.code.get? (f.pc + 1) = some c2 →
        f.stack = .StringRef s :: .StringRef t :: rest →
        execOne vm f 0xA5 opPc = .ok .Continue vm { f with pc := f.pc + 2, stack := rest }) := by
  refine ⟨?_, fun s t => rfl, ?_⟩
  · intro a b
    cases a <;> cases b <;> simp [refsEqual] <;> exact eq_comm
  · intro vm f opPc s t rest c1 c2 hc1 hc2 hs
    show acmpOp vm f opPc (fun eq => eq) = _
    rw [List.get?_eq_getElem?] at hc1 hc2
    simp [acmpOp, Frame.readI16, List.get?_eq_getElem?, hc1, hc2, Frame.pop, hs, refsEqual]

/-- Witness for C10: two identical `"hi"` string references do not branch. -/
def fW10 : Frame :=
  { fW1 with code := [0x00, 0x05], pc := 0, stack := [.StringRef "hi", .StringRef "hi"] }

theorem c10_reference_equality_witness :
    execOne vmW1 fW10 0xA5 0 =
      .ok .Continue vmW1 { fW10 with pc := 2, stack := ([] : List JvmValue) } :=
  c10_reference_equality.2.2 vmW1 fW10 0 "hi" "hi" [] 0 5 rfl rfl rfl
